import Mathlib

/-!
# Verification of the convertflow DWFx→PDF transcoder core

A shallow embedding of `src/convert.js` (the DWFx-to-PDF transcoder of the
convertflow repository) together with theorems settling the frozen claims
about its specification.

Modelling conventions, chosen once and used consistently:

* JavaScript numbers are modelled as `Option ℚ`: `some q` is a finite value,
  `none` models `NaN` / `undefined` / a non-finite result.  The PDF library
  (pdfkit, an external collaborator) raises `unsupported number` when asked
  to write a non-finite number, which is the one way the rendering code can
  throw; an emitted operator carrying a `none` argument therefore throws.
* Byte buffers are `List ℕ` (each entry a byte value).
* The ZIP package is a pair of partial maps from part paths to parsed XML
  roots (`xml2js` parsing, an external collaborator, is modelled as already
  done) and to raw byte contents.
* Exceptions are modelled by an explicit `Bool` flag returned next to the
  document state: `true` means the JavaScript function exited by throwing.
  `try { … } catch {}` keeps the operators emitted before the throw and
  clears the flag, exactly as the mutated pdfkit document would.
-/

set_option maxHeartbeats 2000000
set_option maxRecDepth 8000

/-- A JavaScript number: `some q` is a finite value, `none` is NaN /
`undefined` / non-finite. -/
abbrev JQ := Option ℚ

/-- NaN-propagating addition (`a + b`). -/
def jadd : JQ → JQ → JQ
  | some a, some b => some (a + b)
  | _, _ => none

/-- NaN-propagating subtraction (`a - b`). -/
def jsub : JQ → JQ → JQ
  | some a, some b => some (a - b)
  | _, _ => none

/-- NaN-propagating multiplication (`a * b`). -/
def jmul : JQ → JQ → JQ
  | some a, some b => some (a * b)
  | _, _ => none

/-- NaN-propagating `Math.abs`. -/
def jabs : JQ → JQ
  | some a => some |a|
  | none => none

/-- ASCII decimal digit. -/
def isDigitC (c : Char) : Bool := ('0' ≤ c) && (c ≤ '9')

/-- The whitespace characters relevant to the numeric strings handled here. -/
def isWsC (c : Char) : Bool := c = ' ' || c = '\t' || c = '\n' || c = '\r'

/-- Value of a digit string (most significant first). -/
def digitsVal (ds : List Char) : ℕ := ds.foldl (fun a c => 10 * a + (c.toNat - 48)) 0

/-- Parse an optional exponent part `[eE][+-]?\d+` at the head of `cs`;
returns the exponent and the remaining characters (backtracking to `orig`
when the part is not complete, as the regular expression engine does). -/
def parseExpAt (orig : List Char) (r : List Char) : ℤ × List Char :=
  let (es, r1) : ℤ × List Char :=
    match r with
    | '-' :: rr => (-1, rr)
    | '+' :: rr => (1, rr)
    | _ => (1, r)
  let ed := r1.takeWhile isDigitC
  if ed.isEmpty then (0, orig) else (es * (digitsVal ed : ℤ), r1.dropWhile isDigitC)

/-- Parse an exponent `[eE]…` if present. -/
def parseExp (cs : List Char) : ℤ × List Char :=
  match cs with
  | 'e' :: r => parseExpAt cs r
  | 'E' :: r => parseExpAt cs r
  | _ => (0, cs)

/-- Numeric value of sign, integer digits, fraction digits and exponent. -/
def mantissaVal (sgn : ℚ) (ip fp : List Char) (e : ℤ) : ℚ :=
  sgn * ((digitsVal ip : ℚ) + (digitsVal fp : ℚ) / 10 ^ fp.length) * (10 : ℚ) ^ e

/-- Parse the longest numeric literal `[+-]?(\d+\.?\d*|\.\d+)([eE][+-]?\d+)?`
at the head of `cs`; returns its value and the rest, or `none` when no
literal starts here.  This is the numeric alternative of the path tokenizer's
regular expression and the core of `parseFloat`. -/
def parseNumPrefix (cs : List Char) : Option (ℚ × List Char) :=
  let (sgn, cs1) : ℚ × List Char :=
    match cs with
    | '-' :: r => (-1, r)
    | '+' :: r => (1, r)
    | _ => (1, cs)
  let ip := cs1.takeWhile isDigitC
  let cs2 := cs1.dropWhile isDigitC
  if ip.isEmpty then
    match cs2 with
    | '.' :: r =>
      let fp := r.takeWhile isDigitC
      if fp.isEmpty then none
      else
        let (e, rest) := parseExp (r.dropWhile isDigitC)
        some (mantissaVal sgn ip fp e, rest)
    | _ => none
  else
    match cs2 with
    | '.' :: r =>
      let fp := r.takeWhile isDigitC
      let (e, rest) := parseExp (r.dropWhile isDigitC)
      some (mantissaVal sgn ip fp e, rest)
    | _ =>
      let (e, rest) := parseExp cs2
      some (mantissaVal sgn ip [] e, rest)

/-- JavaScript `parseFloat`: skip leading whitespace, parse the longest
numeric prefix, `NaN` (here `none`) when there is none. -/
def jsParseFloat (s : String) : Option ℚ :=
  match parseNumPrefix (s.toList.dropWhile isWsC) with
  | some (q, _) => some q
  | none => none

/-- JavaScript `Number(string)`: trim, empty string is `0`, otherwise the
whole trimmed string must be a numeric literal. -/
def jsNumber (s : String) : Option ℚ :=
  let cs := ((s.toList.dropWhile isWsC).reverse.dropWhile isWsC).reverse
  if cs.isEmpty then some 0
  else
    match parseNumPrefix cs with
    | some (q, []) => some q
    | _ => none

/-- JavaScript string truthiness for an optional attribute: absent and the
empty string are falsy. -/
def truthy : Option String → Bool
  | some s => !s.isEmpty
  | none => false

/-- `attr || "default"` on an optional attribute string. -/
def jsOrDefault (o : Option String) (d : String) : String :=
  match o with
  | some s => if s.isEmpty then d else s
  | none => d

/-- An element of the parsed Fixed Page XML tree: tag name, attribute map,
ordered children (the `#name`/`$`/`$$` fields of the xml2js node). -/
inductive Elem where
  | mk (name : String) (attrs : List (String × String)) (children : List Elem)

def Elem.name : Elem → String
  | .mk n _ _ => n

def Elem.attrs : Elem → List (String × String)
  | .mk _ a _ => a

def Elem.children : Elem → List Elem
  | .mk _ _ c => c

/-- Attribute lookup, `node.$.k`. -/
def getAttr (e : Elem) (k : String) : Option String :=
  (e.attrs.find? (fun p => p.1 == k)).map (fun p => p.2)

/-- Strip the prefix `pre` from `s` once, if present (an anchored
`replace(/^pre/, "")`). -/
def stripOnce (pre s : String) : String :=
  if pre.isPrefixOf s then s.drop pre.length else s

/-- Path cleaning used by `readEntry`/`readEntryBuf`:
`p.replace(/^\.\//, "").replace(/^\//, "")`. -/
def cleanEntryPath (p : String) : String := stripOnce "/" (stripOnce "./" p)

/-- Segment normalization of `path.posix.join` for the relative paths that
occur here: drop empty and `.` segments, let `..` pop the previous segment. -/
def normSegs : List String → List String → List String
  | [], acc => acc.reverse
  | s :: rest, acc =>
    if s = "" || s = "." then normSegs rest acc
    else if s = ".." then
      match acc with
      | top :: accr => if top = ".." then normSegs rest (s :: acc) else normSegs rest accr
      | [] => normSegs rest [s]
    else normSegs rest (s :: acc)

/-- `path.posix.join` on two relative paths. -/
def posixJoin (a b : String) : String :=
  let j := String.intercalate "/" (normSegs (a.splitOn "/" ++ b.splitOn "/") [])
  if j = "" then "." else j

/-- `path.posix.dirname`. -/
def posixDirname (s : String) : String :=
  let cs := s.toList
  match ((List.range cs.length).filter (fun i => cs.getD i ' ' = '/')).getLast? with
  | none => "."
  | some 0 => "/"
  | some i => ⟨cs.take i⟩

/-- `path.basename`. -/
def posixBasename (s : String) : String :=
  match (s.splitOn "/").getLast? with
  | some x => x
  | none => s

/-- `resolvePath(base, rel)` of the source: absolute paths drop the root
slash, `./` is stripped, otherwise a posix join with the base path. -/
def resolvePath (base rel : String) : String :=
  if "/".isPrefixOf rel then rel.drop 1
  else
    let rel1 := if "./".isPrefixOf rel then rel.drop 2 else rel
    posixJoin base rel1

/-- The opened DWFx package.  Text parts are returned as parsed XML roots
(the xml2js parser is an external collaborator and modelled as already
applied; `X || Object.values(parsed)[0]` yields the single root element);
binary parts as byte lists. -/
structure Zip where
  xml : String → Option Elem
  bin : String → Option (List ℕ)

/-- `readEntry`: UTF-8/XML part, or `null` when absent. -/
def readEntry (z : Zip) (p : String) : Option Elem := z.xml (cleanEntryPath p)

/-- `readEntryBuf`: raw bytes, or `null` when absent. -/
def readEntryBuf (z : Zip) (p : String) : Option (List ℕ) := z.bin (cleanEntryPath p)

/-- ASCII hex digit (either case, as in the `/i` regular expression). -/
def isHexC (c : Char) : Bool :=
  isDigitC c || (('a' ≤ c) && (c ≤ 'f')) || (('A' ≤ c) && (c ≤ 'F'))

/-- Value of a hex digit. -/
def hexVal (c : Char) : ℕ :=
  if isDigitC c then c.toNat - 48
  else if ('a' ≤ c) && (c ≤ 'f') then c.toNat - 87
  else if ('A' ≤ c) && (c ≤ 'F') then c.toNat - 55
  else 0

def allHex (l : List Char) : Bool := l.all isHexC

/-- Try to match the UUID pattern
`[0-9a-f]{8}-[0-9a-f]{4}-[0-9a-f]{4}-[0-9a-f]{4}-[0-9a-f]{12}` (case
insensitive) at the head of `cs`, returning the five captured groups. -/
def uuidAt (cs : List Char) :
    Option (List Char × List Char × List Char × List Char × List Char) :=
  let g1 := cs.take 8
  let d1 := cs.drop 8
  let g2 := (d1.drop 1).take 4
  let d2 := d1.drop 5
  let g3 := (d2.drop 1).take 4
  let d3 := d2.drop 5
  let g4 := (d3.drop 1).take 4
  let d4 := d3.drop 5
  let g5 := (d4.drop 1).take 12
  if g1.length = 8 && allHex g1 && d1.headD ' ' = '-' &&
      g2.length = 4 && allHex g2 && d2.headD ' ' = '-' &&
      g3.length = 4 && allHex g3 && d3.headD ' ' = '-' &&
      g4.length = 4 && allHex g4 && d4.headD ' ' = '-' &&
      g5.length = 12 && allHex g5 then
    some (g1, g2, g3, g4, g5)
  else none

/-- Leftmost match of the UUID pattern in a character list
(`fileName.match(/…/i)`). -/
def uuidScan : List Char → Option (List Char × List Char × List Char × List Char × List Char)
  | [] => none
  | c :: rest =>
    match uuidAt (c :: rest) with
    | some g => some g
    | none => uuidScan rest

/-- `parseInt(s.slice(i, i + 2), 16)` for a hex group: the byte at offset
`i`, high nibble first. -/
def hexPairAt (s : List Char) (i : ℕ) : ℕ :=
  16 * hexVal (s.getD i '0') + hexVal (s.getD (i + 1) '0')

/-- The 16-byte ODTTF deobfuscation key derived from the five UUID groups,
in the source's exact order of byte-pair offsets. -/
def odttfKey (g1 g2 g3 g4 g5 : List Char) : List ℕ :=
  [hexPairAt g1 6, hexPairAt g1 4, hexPairAt g1 2, hexPairAt g1 0,
   hexPairAt g2 2, hexPairAt g2 0,
   hexPairAt g3 2, hexPairAt g3 0,
   hexPairAt g4 0, hexPairAt g4 2,
   hexPairAt g5 0, hexPairAt g5 2, hexPairAt g5 4, hexPairAt g5 6,
   hexPairAt g5 8, hexPairAt g5 10]

/-- The loop `for (let i = 0; i < 32 && i < out.length; i++)
out[i] ^= key[i % 16]`, written as a recursion carrying the index `i`. -/
def xorFirst32 (key : List ℕ) (i : ℕ) : List ℕ → List ℕ
  | [] => []
  | b :: rest => (if i < 32 then b ^^^ key.getD (i % 16) 0 else b) :: xorFirst32 key (i + 1) rest

/-- `deobfuscateOdttf(buffer, fileName)`: when the filename contains a UUID,
XOR the first 32 bytes with the derived key, cycling through its 16 bytes;
otherwise return the buffer unchanged. -/
def deobfuscateOdttf (buffer : List ℕ) (fileName : String) : List ℕ :=
  match uuidScan fileName.toList with
  | none => buffer
  | some (g1, g2, g3, g4, g5) =>
    let key := odttfKey g1 g2 g3 g4 g5
    xorFirst32 key 0 buffer

example : jsParseFloat "960" = some 960 := by with_unfolding_all decide
example : jsParseFloat "12.5e1" = some 125 := by with_unfolding_all decide
example : jsParseFloat "-0.8" = some (-(4/5)) := by with_unfolding_all decide
example : jsParseFloat "abc" = none := by with_unfolding_all decide
example : jsNumber "" = some 0 := by with_unfolding_all decide
example : jsNumber "x" = none := by with_unfolding_all decide
example : jsNumber "3.5" = some (7/2) := by with_unfolding_all decide
example : cleanEntryPath "/Documents/1/Pages/1.fpage" = "Documents/1/Pages/1.fpage" := by with_unfolding_all decide
example : posixDirname "Documents/1/Pages/1.fpage" = "Documents/1/Pages" := by with_unfolding_all decide
example : posixDirname "page.fpage" = "." := by with_unfolding_all decide
example : posixBasename "/Fonts/AB.odttf" = "AB.odttf" := by with_unfolding_all decide
example : resolvePath "Documents/1" "/Fonts/f.odttf" = "Fonts/f.odttf" := by with_unfolding_all decide
example : resolvePath "Documents/1" "../Resources/i.png" = "Documents/Resources/i.png" := by with_unfolding_all decide
example :
    (uuidScan "ABCDEF01-2345-6789-ABCD-EF0123456789".toList).isSome = true := by with_unfolding_all decide
example : uuidScan "f.odttf".toList = none := by with_unfolding_all decide

/-- A token of the path mini-language: a command letter or a number
(`tokenizePath` pushes `m[1] || parseFloat(m[2])`). -/
inductive Tok where
  | cmd (c : Char)
  | num (q : ℚ)
deriving DecidableEq

/-- Command letters of the tokenizer's regular expression,
`[a-df-zA-DF-Z]` (`e`/`E` excluded so exponents stay inside numbers). -/
def isCmdChar (c : Char) : Bool :=
  ((('a' ≤ c) && (c ≤ 'z')) || (('A' ≤ c) && (c ≤ 'Z'))) && c ≠ 'e' && c ≠ 'E'

/-- One left-to-right scan of the tokenizer's global regular expression:
at each position match a command letter or a numeric literal, else advance
one character.  `fuel` bounds the number of steps (each consumes at least
one character, so the string length suffices). -/
def tokenizeAux : ℕ → List Char → List Tok
  | 0, _ => []
  | _, [] => []
  | fuel + 1, c :: rest =>
    if isCmdChar c then Tok.cmd c :: tokenizeAux fuel rest
    else
      match parseNumPrefix (c :: rest) with
      | some (q, rest1) => Tok.num q :: tokenizeAux fuel rest1
      | none => tokenizeAux fuel rest

/-- `tokenizePath(d)`. -/
def tokenizePath (d : String) : List Tok := tokenizeAux d.length d.toList

/-- The path interpreter's mutable state: current point `(cx, cy)` and
subpath start `(sx, sy)`. -/
structure PSt where
  cx : JQ
  cy : JQ
  sx : JQ
  sy : JQ
deriving DecidableEq

/-- An abstract pdfkit operator, as invoked by the emitter.  Coordinates are
JavaScript numbers (`JQ`).  `arc` stands for the whole elliptical-arc call
`emitArc(doc, x1, y1, rx, ry, rot, largeArc, sweep, x2, y2)`, whose
cubic-Bézier expansion is real-valued and modelled separately by
`emitArcSegs` below; no claim depends on the expansion inside an operator
stream. -/
inductive Op where
  | save
  | restore
  | transform (a b c d e f : JQ)
  | moveTo (x y : JQ)
  | lineTo (x y : JQ)
  | bezierCurveTo (x1 y1 x2 y2 x y : JQ)
  | quadraticCurveTo (qx qy x y : JQ)
  | closePath
  | clip
  | fill (color : String)
  | strokeOp
  | fillAndStroke (fillColor strokeColor : String)
  | image (img : List ℕ) (x y w h : JQ)
  | strokeColor (c : String)
  | lineWidth (w : JQ)
  | lineCap (s : String)
  | lineJoin (s : String)
  | miterLimit (m : JQ)
  | dash (parts : List JQ) (phase : JQ)
  | undash
  | fontOp (name : String)
  | fontSize (s : JQ)
  | fillColor (c : String)
  | text (t : String) (x y : JQ) (lineBreakOff : Bool)
  | arc (x1 y1 rx ry rot la sw x2 y2 : JQ)
deriving DecidableEq

/-- Value of `t[i]` when read by `num()`: a number yields itself, a command
letter read out of place (or running past the end) yields junk, modelled as
`none`. -/
def tokVal : Tok → JQ
  | .num q => some q
  | .cmd _ => none

/-- `t[i + k]` as read by `num()` (missing positions are `undefined`). -/
def gv : List Tok → ℕ → JQ
  | [], _ => none
  | t :: _, 0 => tokVal t
  | _ :: ts, k + 1 => gv ts k

/-- One `while (isNum()) { … }` operand loop of `drawPathData`: while the
next token is a number, read `opnd` operands (`num()` consumes a token
whether or not it is a number) and apply `step`, which receives the current
state and the operand getter and returns the emitted operator and the state
update.  Returns the emitted operators, the final state and the remaining
tokens. -/
def runLoop (opnd : ℕ) (step : PSt → (ℕ → JQ) → Op × PSt) :
    (ts : List Tok) → PSt → List Op × PSt × List Tok
  | .num q :: rest, st =>
    let getOp : ℕ → JQ := fun k => if k = 0 then some q else gv rest (k - 1)
    let (op, st1) := step st getOp
    let (ops, st2, r) := runLoop opnd step (rest.drop (opnd - 1)) st1
    (op :: ops, st2, r)
  | ts, st => ([], st, ts)
termination_by ts => ts.length
decreasing_by simp; omega

/-- `L`: absolute `lineTo`. -/
def lineStepAbs : PSt → (ℕ → JQ) → Op × PSt := fun st g =>
  (Op.lineTo (g 0) (g 1), { st with cx := g 0, cy := g 1 })

/-- `l`: relative `lineTo`. -/
def lineStepRel : PSt → (ℕ → JQ) → Op × PSt := fun st g =>
  let x := jadd st.cx (g 0)
  let y := jadd st.cy (g 1)
  (Op.lineTo x y, { st with cx := x, cy := y })

/-- `H`: absolute horizontal `lineTo`. -/
def hStepAbs : PSt → (ℕ → JQ) → Op × PSt := fun st g =>
  (Op.lineTo (g 0) st.cy, { st with cx := g 0 })

/-- `h`: relative horizontal `lineTo`. -/
def hStepRel : PSt → (ℕ → JQ) → Op × PSt := fun st g =>
  let x := jadd st.cx (g 0)
  (Op.lineTo x st.cy, { st with cx := x })

/-- `V`: absolute vertical `lineTo`. -/
def vStepAbs : PSt → (ℕ → JQ) → Op × PSt := fun st g =>
  (Op.lineTo st.cx (g 0), { st with cy := g 0 })

/-- `v`: relative vertical `lineTo`. -/
def vStepRel : PSt → (ℕ → JQ) → Op × PSt := fun st g =>
  let y := jadd st.cy (g 0)
  (Op.lineTo st.cx y, { st with cy := y })

/-- `C`: absolute cubic Bézier. -/
def curveStepAbs : PSt → (ℕ → JQ) → Op × PSt := fun st g =>
  (Op.bezierCurveTo (g 0) (g 1) (g 2) (g 3) (g 4) (g 5),
   { st with cx := g 4, cy := g 5 })

/-- `c`: relative cubic Bézier. -/
def curveStepRel : PSt → (ℕ → JQ) → Op × PSt := fun st g =>
  let x1 := jadd st.cx (g 0)
  let y1 := jadd st.cy (g 1)
  let x2 := jadd st.cx (g 2)
  let y2 := jadd st.cy (g 3)
  let x := jadd st.cx (g 4)
  let y := jadd st.cy (g 5)
  (Op.bezierCurveTo x1 y1 x2 y2 x y, { st with cx := x, cy := y })

/-- `Q`: absolute quadratic Bézier. -/
def quadStepAbs : PSt → (ℕ → JQ) → Op × PSt := fun st g =>
  (Op.quadraticCurveTo (g 0) (g 1) (g 2) (g 3), { st with cx := g 2, cy := g 3 })

/-- `q`: relative quadratic Bézier. -/
def quadStepRel : PSt → (ℕ → JQ) → Op × PSt := fun st g =>
  let qx := jadd st.cx (g 0)
  let qy := jadd st.cy (g 1)
  let x := jadd st.cx (g 2)
  let y := jadd st.cy (g 3)
  (Op.quadraticCurveTo qx qy x y, { st with cx := x, cy := y })

/-- `A`: absolute elliptical arc (`emitArc` then `cx = ex; cy = ey`). -/
def arcStepAbs : PSt → (ℕ → JQ) → Op × PSt := fun st g =>
  (Op.arc st.cx st.cy (g 0) (g 1) (g 2) (g 3) (g 4) (g 5) (g 6),
   { st with cx := g 5, cy := g 6 })

/-- `a`: relative elliptical arc. -/
def arcStepRel : PSt → (ℕ → JQ) → Op × PSt := fun st g =>
  let ex := jadd st.cx (g 5)
  let ey := jadd st.cy (g 6)
  (Op.arc st.cx st.cy (g 0) (g 1) (g 2) (g 3) (g 4) ex ey,
   { st with cx := ex, cy := ey })

theorem runLoop_rest_length_le (opnd : ℕ) (step : PSt → (ℕ → JQ) → Op × PSt) :
    ∀ (n : ℕ) (ts : List Tok) (st : PSt), ts.length ≤ n →
      (runLoop opnd step ts st).2.2.length ≤ ts.length := by
  intro n
  induction n with
  | zero =>
    intro ts st h
    rw [runLoop.eq_def]
    split
    · simp_all
    · simp
  | succ n ih =>
    intro ts st h
    rw [runLoop.eq_def]
    split
    · rename_i q rest
      rcases hstep : step st (fun k => if k = 0 then some q else gv rest (k - 1)) with ⟨op, st1⟩
      rcases hrun : runLoop opnd step (rest.drop (opnd - 1)) st1 with ⟨ops, st2, r⟩
      simp only [hstep, hrun]
      have hd : (rest.drop (opnd - 1)).length ≤ rest.length := by
        simp [List.length_drop]
      have hih := ih (rest.drop (opnd - 1)) st1 (by simp at h ⊢; omega)
      rw [hrun] at hih
      simp at hih h ⊢
      omega
    · simp

theorem runLoop_rest_le (opnd : ℕ) (step : PSt → (ℕ → JQ) → Op × PSt)
    (ts : List Tok) (st : PSt) :
    (runLoop opnd step ts st).2.2.length ≤ ts.length :=
  runLoop_rest_length_le opnd step ts.length ts st le_rfl

/-- The dispatch loop of `drawPathData`: `const cmd = t[i++]; switch (cmd)`.
A number in command position matches no case and is skipped, as is an
unknown letter (the final catch-all).  `F` is consumed with no effect;
`M`/`m` set the subpath start and fall into a `lineTo` loop; `Z`/`z` close
the subpath and reset the current point to the subpath start. -/
def drawTokens : (ts : List Tok) → PSt → List Op × PSt
  | [], st => ([], st)
  | .num _ :: rest, st => drawTokens rest st
  | .cmd 'F' :: rest, st => drawTokens rest st
  | .cmd 'M' :: rest, _ =>
    let x := gv rest 0
    let y := gv rest 1
    let res := runLoop 2 lineStepAbs (rest.drop 2) ⟨x, y, x, y⟩
    let (dops, st3) := drawTokens res.2.2 res.2.1
    (Op.moveTo x y :: (res.1 ++ dops), st3)
  | .cmd 'm' :: rest, st =>
    let x := jadd st.cx (gv rest 0)
    let y := jadd st.cy (gv rest 1)
    let res := runLoop 2 lineStepRel (rest.drop 2) ⟨x, y, x, y⟩
    let (dops, st3) := drawTokens res.2.2 res.2.1
    (Op.moveTo x y :: (res.1 ++ dops), st3)
  | .cmd 'L' :: rest, st =>
    let res := runLoop 2 lineStepAbs rest st
    let (dops, st2) := drawTokens res.2.2 res.2.1
    (res.1 ++ dops, st2)
  | .cmd 'l' :: rest, st =>
    let res := runLoop 2 lineStepRel rest st
    let (dops, st2) := drawTokens res.2.2 res.2.1
    (res.1 ++ dops, st2)
  | .cmd 'H' :: rest, st =>
    let res := runLoop 1 hStepAbs rest st
    let (dops, st2) := drawTokens res.2.2 res.2.1
    (res.1 ++ dops, st2)
  | .cmd 'h' :: rest, st =>
    let res := runLoop 1 hStepRel rest st
    let (dops, st2) := drawTokens res.2.2 res.2.1
    (res.1 ++ dops, st2)
  | .cmd 'V' :: rest, st =>
    let res := runLoop 1 vStepAbs rest st
    let (dops, st2) := drawTokens res.2.2 res.2.1
    (res.1 ++ dops, st2)
  | .cmd 'v' :: rest, st =>
    let res := runLoop 1 vStepRel rest st
    let (dops, st2) := drawTokens res.2.2 res.2.1
    (res.1 ++ dops, st2)
  | .cmd 'C' :: rest, st =>
    let res := runLoop 6 curveStepAbs rest st
    let (dops, st2) := drawTokens res.2.2 res.2.1
    (res.1 ++ dops, st2)
  | .cmd 'c' :: rest, st =>
    let res := runLoop 6 curveStepRel rest st
    let (dops, st2) := drawTokens res.2.2 res.2.1
    (res.1 ++ dops, st2)
  | .cmd 'Q' :: rest, st =>
    let res := runLoop 4 quadStepAbs rest st
    let (dops, st2) := drawTokens res.2.2 res.2.1
    (res.1 ++ dops, st2)
  | .cmd 'q' :: rest, st =>
    let res := runLoop 4 quadStepRel rest st
    let (dops, st2) := drawTokens res.2.2 res.2.1
    (res.1 ++ dops, st2)
  | .cmd 'A' :: rest, st =>
    let res := runLoop 7 arcStepAbs rest st
    let (dops, st2) := drawTokens res.2.2 res.2.1
    (res.1 ++ dops, st2)
  | .cmd 'a' :: rest, st =>
    let res := runLoop 7 arcStepRel rest st
    let (dops, st2) := drawTokens res.2.2 res.2.1
    (res.1 ++ dops, st2)
  | .cmd 'Z' :: rest, st =>
    let (dops, st2) := drawTokens rest { st with cx := st.sx, cy := st.sy }
    (Op.closePath :: dops, st2)
  | .cmd 'z' :: rest, st =>
    let (dops, st2) := drawTokens rest { st with cx := st.sx, cy := st.sy }
    (Op.closePath :: dops, st2)
  | .cmd _ :: rest, st => drawTokens rest st
termination_by ts => ts.length
decreasing_by
  all_goals
    first
    | (simp only [List.length_cons]; omega)
    | (simp only [List.length_cons]
       apply Nat.lt_succ_of_le
       refine le_trans (runLoop_rest_le _ _ _ _) ?_
       first
       | exact le_rfl
       | (simp only [List.length_drop]; omega))

/-- `drawPathData(doc, d)`: tokenize and replay from the origin. -/
def drawPathData (d : String) : List Op :=
  (drawTokens (tokenizePath d) ⟨some 0, some 0, some 0, some 0⟩).1

/-- `F` of the path language is consumed with no drawing effect; sanity
check of the tokenizer and interpreter on the red-square scenario. -/
example :
    drawPathData "M 10,10 L 110,10" =
      [Op.moveTo (some 10) (some 10), Op.lineTo (some 110) (some 10)] := by
  with_unfolding_all decide

/-- The mutable pdfkit document state: the emitted operator stream, the
fonts registered on this document (`doc.registerFont`), and the
process-global `registeredFonts` set (a module-level `const` in the
source, threaded here because it outlives single conversions). -/
structure St where
  ops : List Op
  docFonts : List String
  reg : List String
deriving DecidableEq

/-- Which pdfkit calls throw (external collaborator model): any operator
argument that is a non-finite number makes pdfkit's `PDFObject.number`
raise `unsupported number`; `doc.font(name)` with a name that is neither a
standard face nor registered on this document tries to open it as a file
and throws.  `fontSize`/`fillColor` only store state and do not throw. -/
def opThrows (st : St) : Op → Bool
  | .transform a b c d e f =>
    a.isNone || b.isNone || c.isNone || d.isNone || e.isNone || f.isNone
  | .moveTo x y => x.isNone || y.isNone
  | .lineTo x y => x.isNone || y.isNone
  | .bezierCurveTo x1 y1 x2 y2 x y =>
    x1.isNone || y1.isNone || x2.isNone || y2.isNone || x.isNone || y.isNone
  | .quadraticCurveTo qx qy x y => qx.isNone || qy.isNone || x.isNone || y.isNone
  | .arc x1 y1 rx ry rot la sw x2 y2 =>
    x1.isNone || y1.isNone || rx.isNone || ry.isNone || rot.isNone ||
      la.isNone || sw.isNone || x2.isNone || y2.isNone
  | .image _ x y w h => x.isNone || y.isNone || w.isNone || h.isNone
  | .lineWidth w => w.isNone
  | .miterLimit m => m.isNone
  | .dash parts phase => parts.any Option.isNone || phase.isNone
  | .text _ x y _ => x.isNone || y.isNone
  | .fontOp name => !(name = "Helvetica" || st.docFonts.contains name)
  | _ => false

/-- Perform one pdfkit call: on success append the operator, on failure
raise (flag `true`) leaving the stream unchanged. -/
def emit (st : St) (op : Op) : St × Bool :=
  if opThrows st op then (st, true)
  else ({ st with ops := st.ops ++ [op] }, false)

/-- Perform a sequence of pdfkit calls, stopping at the first throw (the
operators already emitted stay, as the mutated document would keep them). -/
def emitList (st : St) : List Op → St × Bool
  | [] => (st, false)
  | op :: rest =>
    match emit st op with
    | (st1, true) => (st1, true)
    | (st1, false) => emitList st1 rest

/-- Characters of the separator class `[\s,]`. -/
def isSepC (c : Char) : Bool := isWsC c || c = ','

/-- JavaScript `str.split(/[\s,]+/)`: split on maximal separator runs; a
leading or trailing run produces an empty field. -/
def splitSepRuns : (cs : List Char) → List Char → List String
  | [], cur => [⟨cur.reverse⟩]
  | c :: rest, cur =>
    if isSepC c then ⟨cur.reverse⟩ :: splitSepRuns (rest.dropWhile isSepC) []
    else splitSepRuns rest (c :: cur)
termination_by cs => cs.length
decreasing_by
  · have := (List.dropWhile_sublist (l := rest) isSepC).length_le
    simp
    omega
  · simp

/-- `str.split(/[\s,]+/)` on a string. -/
def jsSplitWsComma (s : String) : List String := splitSepRuns s.toList []

example : jsSplitWsComma "0,0,200,150" = ["0", "0", "200", "150"] := by
  with_unfolding_all decide
example : jsSplitWsComma " 1, 2" = ["", "1", "2"] := by with_unfolding_all decide

/-- `m[i]` of a `split(…).map(Number)` result: missing entries are
`undefined`, hence non-finite. -/
def atNum (l : List (Option ℚ)) (i : ℕ) : JQ := l.getD i none

/-- Word characters `\w`. -/
def isWordC (c : Char) : Bool :=
  isDigitC c || (('a' ≤ c) && (c ≤ 'z')) || (('A' ≤ c) && (c ≤ 'Z')) || c = '_'

/-- `fill.match(/^\{StaticResource\s+(\w+)\}$/)`: the captured resource key,
or `none` when the fill string is not a static-resource reference. -/
def staticResourceKey (s : String) : Option String :=
  let cs := s.toList
  if cs.take 15 = "\x7bStaticResource".toList then
    let r := cs.drop 15
    let ws := r.takeWhile isWsC
    let r1 := r.dropWhile isWsC
    if ws.isEmpty then none
    else
      let w := r1.takeWhile isWordC
      let r2 := r1.dropWhile isWordC
      if w.isEmpty then none
      else if r2 = ['}'] then some ⟨w⟩ else none
  else none

example : staticResourceKey "{StaticResource B1}" = some "B1" := by
  with_unfolding_all decide
example : staticResourceKey "#FF0000" = none := by with_unfolding_all decide

/-- `applyStrokeStyle(doc, node, thickness)` as the sequence of pdfkit calls
it makes: stroke color, line width, caps, joins, miter limit, then dash
pattern (scaled by the thickness, phase `|offset · thickness|`) or
`undash`. -/
def applyStrokeStyle (node : Elem) (thickness : JQ) : List Op :=
  let cap :=
    (jsOrDefault (getAttr node "StrokeEndLineCap")
      (jsOrDefault (getAttr node "StrokeStartLineCap") "Flat")).toLower
  let capMapped := if cap = "round" then "round" else if cap = "square" then "square" else "butt"
  let joinStr := (jsOrDefault (getAttr node "StrokeLineJoin") "Miter").toLower
  let joinMapped :=
    if joinStr = "round" then "round" else if joinStr = "bevel" then "bevel" else "miter"
  let miter := jsParseFloat (jsOrDefault (getAttr node "StrokeMiterLimit") "10")
  let base :=
    [Op.strokeColor ((getAttr node "Stroke").getD ""),
     Op.lineWidth thickness,
     Op.lineCap capMapped,
     Op.lineJoin joinMapped,
     Op.miterLimit miter]
  let dashStr := getAttr node "StrokeDashArray"
  if truthy dashStr && dashStr.getD "" ≠ "1 0" then
    let dashOffset := jsParseFloat (jsOrDefault (getAttr node "StrokeDashOffset") "0")
    let parts := (jsSplitWsComma (dashStr.getD "")).map (fun p => jmul (jsParseFloat p) thickness)
    base ++ [Op.dash parts (jabs (jmul dashOffset thickness))]
  else base ++ [Op.undash]

/-- An `ImageBrush` entry of the resource table: loaded image bytes and the
verbatim `Transform` / `Viewport` / `Viewbox` attribute strings. -/
structure Brush where
  imageBuffer : Option (List ℕ)
  transform : Option String
  viewport : Option String
  viewbox : Option String

/-- The resource table (`resources[key] = …`; later assignments win). -/
abbrev Res := String → Option Brush

/-- The font table (`fonts[uri] = deobfuscated buffer`; first load wins). -/
abbrev Fonts := String → Option (List ℕ)

/-- `loadBrush(node, basePath, zip, resources)`. -/
def loadBrush (z : Zip) (basePath : String) (node : Elem) (res : Res) : Res :=
  if node.name ≠ "ImageBrush" then res
  else
    let key :=
      match getAttr node "x:Key" with
      | some s => if s.isEmpty then getAttr node "Key" else some s
      | none => getAttr node "Key"
    let imgSrc := getAttr node "ImageSource"
    if !truthy key || !truthy imgSrc then res
    else fun k =>
      if k = key.getD "" then
        some ⟨readEntryBuf z (resolvePath basePath (imgSrc.getD "")),
          getAttr node "Transform", getAttr node "Viewport", getAttr node "Viewbox"⟩
      else res k

/-- `parseResourceDict`: register every `ImageBrush` child of a resource
dictionary part. -/
def parseResourceDict (z : Zip) (basePath : String) (root : Elem) (res : Res) : Res :=
  root.children.foldl (fun r c => loadBrush z basePath c r) res

/-- One `ResourceDictionary` inside `Canvas.Resources`: load the `Source`
part if present, then the inline `ImageBrush` children. -/
def resourceDictStep (z : Zip) (basePath : String) (rd : Elem) (res : Res) : Res :=
  if rd.name ≠ "ResourceDictionary" then res
  else
    let res1 :=
      match getAttr rd "Source" with
      | some src =>
        if src.isEmpty then res
        else
          match readEntry z (resolvePath basePath src) with
          | some dictRoot => parseResourceDict z basePath dictRoot res
          | none => res
      | none => res
    rd.children.foldl (fun r c => loadBrush z basePath c r) res1

mutual

/-- `collectResources(node, zip, basePath, resources)`: depth-first; a
`Canvas.Resources` child has its `ResourceDictionary` entries processed
before the recursion continues into it. -/
def collectResources (z : Zip) (basePath : String) : Elem → Res → Res
  | .mk _ _ cs, res => collectResList z basePath cs res

def collectResList (z : Zip) (basePath : String) : List Elem → Res → Res
  | [], res => res
  | c :: rest, res =>
    let res1 :=
      if c.name = "Canvas.Resources" then
        c.children.foldl (fun r rd => resourceDictStep z basePath rd r) res
      else res
    collectResList z basePath rest (collectResources z basePath c res1)

end

mutual

/-- `collectFontRefs(node, zip, basePath, fonts)`: depth-first; each
`Glyphs` element's `FontUri` is loaded (first occurrence wins) and
deobfuscated against its base filename. -/
def collectFontRefs (z : Zip) (basePath : String) : Elem → Fonts → Fonts
  | .mk _ _ cs, fonts => collectFontList z basePath cs fonts

def collectFontList (z : Zip) (basePath : String) : List Elem → Fonts → Fonts
  | [], fonts => fonts
  | c :: rest, fonts =>
    let fonts1 :=
      if c.name = "Glyphs" then
        let uri := getAttr c "FontUri"
        if truthy uri && (fonts (uri.getD "")).isNone then
          match readEntryBuf z (resolvePath basePath (uri.getD "")) with
          | some buf =>
            fun k =>
              if k = uri.getD "" then
                some (deobfuscateOdttf buf (posixBasename (uri.getD "")))
              else fonts k
          | none => fonts
        else fonts
      else fonts
    collectFontList z basePath rest (collectFontRefs z basePath c fonts1)

end

/-- UTF-8 bytes of one code point (`Buffer.from(string)` encoding). -/
def charUtf8 (n : ℕ) : List ℕ :=
  if n < 128 then [n]
  else if n < 2048 then [192 + n / 64, 128 + n % 64]
  else if n < 65536 then [224 + n / 4096, 128 + (n / 64) % 64, 128 + n % 64]
  else [240 + n / 262144, 128 + (n / 4096) % 64, 128 + (n / 64) % 64, 128 + n % 64]

/-- UTF-8 bytes of a string. -/
def utf8Bytes (s : String) : List ℕ :=
  (s.toList.map (fun c => charUtf8 c.toNat)).foldr (fun a b => a ++ b) []

/-- Lower-case hex digit. -/
def hexDigitChar (n : ℕ) : Char :=
  if n < 10 then Char.ofNat (48 + n) else Char.ofNat (87 + n)

/-- `Buffer.toString("hex")`. -/
def bufferHex (bs : List ℕ) : String :=
  ⟨(bs.map (fun b => [hexDigitChar (b / 16), hexDigitChar (b % 16)])).foldr
    (fun a b => a ++ b) []⟩

/-- The font identifier for a URI:
`"f_" + Buffer.from(uri).toString("hex").slice(0, 20)`. -/
def fontIdOf (uri : String) : String := "f_" ++ (bufferHex (utf8Bytes uri)).take 20

example : fontIdOf "/f.odttf" = "f_2f662e6f64747466" := by with_unfolding_all decide

/-- The font-selection step of `renderGlyphs`: when the URI was loaded,
compute the font id; register it (adding it to the document's fonts and to
the process-global set) unless the global set already contains it.
`doc.registerFont` is modelled as succeeding for a loaded buffer (its
catch-fallback is for pdfkit rejecting the bytes, outside this model).
Otherwise fall back to `Helvetica`. -/
def glyphFontPick (fonts : Fonts) (node : Elem) (st : St) : String × St :=
  let uri := getAttr node "FontUri"
  if truthy uri && (fonts (uri.getD "")).isSome then
    let fontId := fontIdOf (uri.getD "")
    if !st.reg.contains fontId then
      (fontId, { st with docFonts := st.docFonts ++ [fontId], reg := st.reg ++ [fontId] })
    else (fontId, st)
  else ("Helvetica", st)

/-- The pdfkit call chain inside the `try` of `renderGlyphs`:
`doc.font(fontName).fontSize(fontSize).fillColor(fill)` then
`doc.text(text, ox, oy - fontSize * 0.8, { lineBreak: false })`. -/
def glyphTryOps (node : Elem) (fontName : String) : List Op :=
  [Op.fontOp fontName,
   Op.fontSize (jsParseFloat (jsOrDefault (getAttr node "FontRenderingEmSize") "12")),
   Op.fillColor (jsOrDefault (getAttr node "Fill") "#000000"),
   Op.text ((getAttr node "UnicodeString").getD "")
     (jsParseFloat (jsOrDefault (getAttr node "OriginX") "0"))
     (jsub (jsParseFloat (jsOrDefault (getAttr node "OriginY") "0"))
       (jmul (jsParseFloat (jsOrDefault (getAttr node "FontRenderingEmSize") "12"))
         (some (4 / 5))))
     false]

/-- `renderGlyphs(doc, node, fonts)`.  An empty or absent `UnicodeString`
skips the element.  The text call chain sits in a `try` whose failures are
swallowed, and the final `doc.restore()` is outside the `try`, so this
function never throws (`doc.save()` and `doc.restore()` cannot fail, hence
the `.1` projections). -/
def renderGlyphs (fonts : Fonts) (node : Elem) (st : St) : St × Bool :=
  let text := getAttr node "UnicodeString"
  if !truthy text then (st, false)
  else
    let st1 := (emit st Op.save).1
    let pick := glyphFontPick fonts node st1
    let st3 := (emitList pick.2 (glyphTryOps node pick.1)).1
    ((emit st3 Op.restore).1, false)

/-- The pdfkit call sequence inside the `try` of `renderImageFill`: draw
the path, clip to it, apply the brush transform when present, and place
the image in the viewport (default `0,0,100,100`). -/
def imageFillTryOps (brush : Brush) (img : List ℕ) (data : String) : List Op :=
  let transformOps :=
    if truthy brush.transform then
      let t := ((brush.transform.getD "").splitOn ",").map jsNumber
      [Op.transform (atNum t 0) (atNum t 1) (atNum t 2) (atNum t 3) (atNum t 4) (atNum t 5)]
    else []
  let vp : List JQ :=
    if truthy brush.viewport then (jsSplitWsComma (brush.viewport.getD "")).map jsNumber
    else [some 0, some 0, some 100, some 100]
  drawPathData data ++ [Op.clip] ++ transformOps ++
    [Op.image img (atNum vp 0) (atNum vp 1) (atNum vp 2) (atNum vp 3)]

/-- `renderImageFill(doc, data, key, resources, stroke, node, thickness)`:
a missing resource or image buffer is a silent no-op; otherwise save, the
clipped image fill inside a `try`, restore; then, if a `Stroke` is
present, a second save, the stroke styling (outside that branch's `try` —
its throws propagate), the stroked path inside a `try`, restore. -/
def renderImageFill (res : Res) (data : String) (key : String) (stroke : Option String)
    (node : Elem) (thickness : JQ) (st : St) : St × Bool :=
  match res key with
  | none => (st, false)
  | some brush =>
    match brush.imageBuffer with
    | none => (st, false)
    | some img =>
      let st3 := (emit (emitList (emit st Op.save).1 (imageFillTryOps brush img data)).1
        Op.restore).1
      if truthy stroke then
        match emitList (emit st3 Op.save).1 (applyStrokeStyle node thickness) with
        | (st5, true) => (st5, true)
        | (st5, false) =>
          ((emit (emitList st5 (drawPathData data ++ [Op.strokeOp])).1 Op.restore).1, false)
      else (st3, false)

/-- `renderPath(doc, node, resources)`.  No `Data` or neither `Fill` nor
`Stroke` is a no-op.  A `{StaticResource KEY}` fill goes to
`renderImageFill`.  Otherwise: save, stroke styling (outside the `try` —
its throws propagate), then path drawing and fill/stroke inside a `try`
whose failures are swallowed, then restore. -/
def renderPath (res : Res) (node : Elem) (st : St) : St × Bool :=
  let data := getAttr node "Data"
  if !truthy data then (st, false)
  else
    let fill := getAttr node "Fill"
    let stroke := getAttr node "Stroke"
    if !truthy fill && !truthy stroke then (st, false)
    else
      let thickness := jsParseFloat (jsOrDefault (getAttr node "StrokeThickness") "1")
      let resMatch := if truthy fill then staticResourceKey (fill.getD "") else none
      match resMatch with
      | some key => renderImageFill res (data.getD "") key stroke node thickness st
      | none =>
        let st1 := (emit st Op.save).1
        let styled : St × Bool :=
          if truthy stroke then emitList st1 (applyStrokeStyle node thickness)
          else (st1, false)
        match styled with
        | (st2, true) => (st2, true)
        | (st2, false) =>
          let finish :=
            if truthy fill && truthy stroke then
              [Op.fillAndStroke (fill.getD "") (stroke.getD "")]
            else if truthy fill then [Op.fill (fill.getD "")]
            else [Op.strokeOp]
          let st3 := (emitList st2 (drawPathData (data.getD "") ++ finish)).1
          ((emit st3 Op.restore).1, false)

/-- The `RenderTransform` step of `renderCanvas`: when the attribute is
truthy, split on commas, convert with `Number` and hand the six entries to
`doc.transform` (missing entries are `undefined`; a non-finite entry makes
the call throw). -/
def canvasRtStep (node : Elem) (st1 : St) : St × Bool :=
  match getAttr node "RenderTransform" with
  | some rt =>
    if rt.isEmpty then (st1, false)
    else
      let m := (rt.splitOn ",").map jsNumber
      emit st1 (Op.transform (atNum m 0) (atNum m 1) (atNum m 2) (atNum m 3)
        (atNum m 4) (atNum m 5))
  | none => (st1, false)

/-- The `Clip` step of `renderCanvas`: when the attribute is truthy, draw
its path data and set the clip — not inside any `try`, so a throw while
drawing propagates. -/
def canvasClipStep (node : Elem) (st2 : St) : St × Bool :=
  match getAttr node "Clip" with
  | some clip =>
    if clip.isEmpty then (st2, false)
    else
      match emitList st2 (drawPathData clip) with
      | (s, true) => (s, true)
      | (s, false) => emit s Op.clip
  | none => (st2, false)

mutual

/-- `renderChildren(doc, node, resources, fonts)`: render the children in
document order; an exception aborts the loop and propagates. -/
def renderChildren (res : Res) (fonts : Fonts) : List Elem → St → St × Bool
  | [], st => (st, false)
  | c :: rest, st =>
    match renderElement res fonts c st with
    | (st1, true) => (st1, true)
    | (st1, false) => renderChildren res fonts rest st1

/-- `renderElement(doc, node, resources, fonts)`: dispatch on the tag. -/
def renderElement (res : Res) (fonts : Fonts) : Elem → St → St × Bool
  | .mk n attrs cs, st =>
    if n = "Canvas" then renderCanvas res fonts (.mk n attrs cs) st
    else if n = "Path" then renderPath res (.mk n attrs cs) st
    else if n = "Glyphs" then renderGlyphs fonts (.mk n attrs cs) st
    else if n = "Canvas.Resources" || n = "ResourceDictionary" then (st, false)
    else renderChildren res fonts cs st

/-- `renderCanvas(doc, node, resources, fonts)`: save, optional
`RenderTransform` (six comma-separated numbers fed to `doc.transform`,
which throws on a non-finite entry), optional `Clip` (drawn and set — not
inside any `try`), children, restore.  There is no `try`/`finally` here:
a throw anywhere after the save propagates without the restore. -/
def renderCanvas (res : Res) (fonts : Fonts) : Elem → St → St × Bool
  | .mk nm attrs cs, st =>
    match canvasRtStep (.mk nm attrs cs) ((emit st Op.save).1) with
    | (st2, true) => (st2, true)
    | (st2, false) =>
      match canvasClipStep (.mk nm attrs cs) st2 with
      | (st3, true) => (st3, true)
      | (st3, false) =>
        match renderChildren res fonts cs st3 with
        | (st4, true) => (st4, true)
        | (st4, false) => ((emit st4 Op.restore).1, false)

end

/-- The error outcomes of a conversion: `PackageInvalid` for a missing
`FixedDocumentSequence.fdseq`, `NoPages` for an empty page list,
`CannotReadPage` for an unreadable first page part, `TypeError` for the
`undefined.replace` crash on a reference without `Source`, `Threw` for a
rendering exception escaping `convertDwfxToPdf`. -/
inductive Err where
  | PackageInvalid
  | NoPages
  | CannotReadPage
  | TypeError
  | Threw
deriving DecidableEq

/-- A page reference `{fpagePath, basePath}`. -/
structure PageRef where
  fpagePath : String
  basePath : String
deriving DecidableEq

/-- The `PageContent` loop of `findPages`: append
`{fpagePath = Source-without-leading-slash, basePath = its directory}` for
every `PageContent` child. -/
def pageContentLoop (acc : List PageRef) : List Elem → Except Err (List PageRef)
  | [] => .ok acc
  | pc :: rest =>
    if pc.name ≠ "PageContent" then pageContentLoop acc rest
    else
      match getAttr pc "Source" with
      | none => .error .TypeError
      | some s =>
        let src := stripOnce "/" s
        pageContentLoop (acc ++ [⟨src, posixDirname src⟩]) rest

/-- The `DocumentReference` loop of `findPages`: read each referenced
FixedDocument part, silently skipping references whose part cannot be
read, and collect their `PageContent` entries. -/
def docRefLoop (z : Zip) (acc : List PageRef) : List Elem → Except Err (List PageRef)
  | [] => .ok acc
  | child :: rest =>
    if child.name ≠ "DocumentReference" then docRefLoop z acc rest
    else
      match getAttr child "Source" with
      | none => .error .TypeError
      | some s =>
        let docSrc := stripOnce "/" s
        match readEntry z docSrc with
        | none => docRefLoop z acc rest
        | some docRoot =>
          match pageContentLoop acc docRoot.children with
          | .error e => .error e
          | .ok acc1 => docRefLoop z acc1 rest

/-- `findPages(zip)`: read `FixedDocumentSequence.fdseq` (fail
`PackageInvalid` — "No FixedDocumentSequence found" — when missing), then
walk the document references. -/
def findPages (z : Zip) : Except Err (List PageRef) :=
  match readEntry z "FixedDocumentSequence.fdseq" with
  | none => .error .PackageInvalid
  | some root => docRefLoop z [] root.children

/-- `XPS_TO_PDF = 72 / 96`. -/
def XPS_TO_PDF : ℚ := 72 / 96

/-- The produced PDF document: the page size passed to `new PDFDocument`
and the emitted operator stream. -/
structure PdfOut where
  size : JQ × JQ
  ops : List Op
deriving DecidableEq

/-- `convertDwfxToPdf(inputPath, outputPath)` on an opened package:
navigate to the first page (fail `NoPages` on none), read it (fail on an
unreadable part), collect resources and fonts, create the document sized
`[Width · 72/96, Height · 72/96]`, then emit `save`, the global `72/96`
transform, the page children, and the closing `restore`.  The
process-global `registeredFonts` set is threaded in and out. -/
def convertDwfxToPdf (z : Zip) (reg : List String) : Except Err PdfOut × List String :=
  match findPages z with
  | .error e => (.error e, reg)
  | .ok [] => (.error .NoPages, reg)
  | .ok (page :: _) =>
    match readEntry z page.fpagePath with
    | none => (.error .CannotReadPage, reg)
    | some fixedPage =>
      let pageW := (getAttr fixedPage "Width").bind jsParseFloat
      let pageH := (getAttr fixedPage "Height").bind jsParseFloat
      let res := collectResources z page.basePath fixedPage (fun _ => none)
      let fonts := collectFontRefs z page.basePath fixedPage (fun _ => none)
      let st0 : St := ⟨[], [], reg⟩
      let st1 := (emit st0 Op.save).1
      let st2 := (emit st1 (Op.transform (some XPS_TO_PDF) (some 0) (some 0)
        (some XPS_TO_PDF) (some 0) (some 0))).1
      match renderChildren res fonts fixedPage.children st2 with
      | (st3, true) => (.error .Threw, st3.reg)
      | (st3, false) =>
        let st4 := (emit st3 Op.restore).1
        (.ok ⟨(jmul pageW (some XPS_TO_PDF), jmul pageH (some XPS_TO_PDF)), st4.ops⟩,
         st4.reg)

/-- `vecAngle(ux, uy, vx, vy)` (the helper of the arc-to-Bézier
conversion), over the reals: the signed angle between `u` and `v`.  Note
the `len || 1` guard of the source: a zero length is replaced by `1` as
the divisor — it does not short-circuit the result. -/
noncomputable def vecAngle (ux uy vx vy : ℝ) : ℝ :=
  let sign : ℝ := if ux * vy - uy * vx < 0 then -1 else 1
  let dot := ux * vx + uy * vy
  let len := Real.sqrt ((ux * ux + uy * uy) * (vx * vx + vy * vy))
  sign * Real.arccos (max (-1) (min 1 (dot / (if len = 0 then 1 else len))))

/-- `vecAngle` as the specification words it (for comparison):
`sign(ux·vy − uy·vx) · acos(clamp(u·v / (|u|·|v|), −1, 1))` with a
`|u|·|v| == 0` guard that returns 0. -/
noncomputable def vecAngleSpec (ux uy vx vy : ℝ) : ℝ :=
  let lenprod := Real.sqrt (ux ^ 2 + uy ^ 2) * Real.sqrt (vx ^ 2 + vy ^ 2)
  if lenprod = 0 then 0
  else
    let sign : ℝ := if ux * vy - uy * vx < 0 then -1 else 1
    sign * Real.arccos (max (-1) (min 1 ((ux * vx + uy * vy) / lenprod)))

/-- `bezierArcSeg(doc, cx, cy, rx, ry, phi, t1, t2)`: one arc segment as
the six real arguments handed to `doc.bezierCurveTo`. -/
noncomputable def bezierArcSeg (cx cy rx ry phi t1 t2 : ℝ) : ℝ × ℝ × ℝ × ℝ × ℝ × ℝ :=
  let alpha := (4 / 3) * Real.tan ((t2 - t1) / 4)
  let cp := Real.cos phi
  let sp := Real.sin phi
  let c1 := Real.cos t1
  let s1 := Real.sin t1
  let c2 := Real.cos t2
  let s2 := Real.sin t2
  let ep := fun (ct st : ℝ) =>
    (cp * rx * ct - sp * ry * st + cx, sp * rx * ct + cp * ry * st + cy)
  let p2 := ep c2 s2
  let d1x := -rx * s1
  let d1y := ry * c1
  let d2x := -rx * s2
  let d2y := ry * c2
  ((ep c1 s1).1 + alpha * (cp * d1x - sp * d1y),
   (ep c1 s1).2 + alpha * (sp * d1x + cp * d1y),
   p2.1 - alpha * (cp * d2x - sp * d2y),
   p2.2 - alpha * (sp * d2x + cp * d2y),
   p2.1, p2.2)

/-- `emitArc(doc, x1, y1, rx, ry, angleDeg, largeArc, sweep, x2, y2)` over
the reals: a straight line for the degenerate cases, otherwise the list of
cubic-Bézier segments (this is the numeric expansion the abstract `Op.arc`
operator stands for).  The numeric flags keep their JavaScript readings:
`largeArc === sweep` is equality, `!sweep` is `sweep = 0`. -/
noncomputable def emitArcSegs (x1 y1 rx0 ry0 angleDeg largeArc sweep x2 y2 : ℝ) :
    Sum (ℝ × ℝ) (List (ℝ × ℝ × ℝ × ℝ × ℝ × ℝ)) :=
  if (x1 = x2 ∧ y1 = y2) ∨ rx0 = 0 ∨ ry0 = 0 then Sum.inl (x2, y2)
  else
    let rx := |rx0|
    let ry := |ry0|
    let phi := angleDeg * Real.pi / 180
    let cp := Real.cos phi
    let sp := Real.sin phi
    let dx := (x1 - x2) / 2
    let dy := (y1 - y2) / 2
    let x1p := cp * dx + sp * dy
    let y1p := -sp * dx + cp * dy
    let lam := x1p ^ 2 / rx ^ 2 + y1p ^ 2 / ry ^ 2
    let rx1 := if lam > 1 then rx * Real.sqrt lam else rx
    let ry1 := if lam > 1 then ry * Real.sqrt lam else ry
    let sq := max 0 ((rx1 ^ 2 * ry1 ^ 2 - rx1 ^ 2 * y1p ^ 2 - ry1 ^ 2 * x1p ^ 2) /
      (rx1 ^ 2 * y1p ^ 2 + ry1 ^ 2 * x1p ^ 2))
    let root0 := Real.sqrt sq
    let root := if largeArc = sweep then -root0 else root0
    let cxp := root * (rx1 * y1p / ry1)
    let cyp := root * -(ry1 * x1p / rx1)
    let cx := cp * cxp - sp * cyp + (x1 + x2) / 2
    let cy := sp * cxp + cp * cyp + (y1 + y2) / 2
    let theta1 := vecAngle 1 0 ((x1p - cxp) / rx1) ((y1p - cyp) / ry1)
    let dTheta0 := vecAngle ((x1p - cxp) / rx1) ((y1p - cyp) / ry1)
      ((-x1p - cxp) / rx1) ((-y1p - cyp) / ry1)
    let dTheta1 := if sweep = 0 ∧ 0 < dTheta0 then dTheta0 - 2 * Real.pi else dTheta0
    let dTheta := if sweep ≠ 0 ∧ dTheta1 < 0 then dTheta1 + 2 * Real.pi else dTheta1
    let segs : ℤ := max 1 ⌈|dTheta| / (Real.pi / 2)⌉
    Sum.inr ((List.range segs.toNat).map (fun s =>
      bezierArcSeg cx cy rx1 ry1 phi (theta1 + s * (dTheta / segs))
        (theta1 + (s + 1) * (dTheta / segs))))

/-! ### Concrete packages used in closed evaluations -/

/-- A minimal well-formed package: one document reference, one 960×720
page with no children. -/
def pageZip : Zip :=
  ⟨fun p =>
    if p = "FixedDocumentSequence.fdseq" then
      some (.mk "FixedDocumentSequence" []
        [.mk "DocumentReference" [("Source", "/doc.fdoc")] []])
    else if p = "doc.fdoc" then
      some (.mk "FixedDocument" []
        [.mk "PageContent" [("Source", "/page.fpage")] []])
    else if p = "page.fpage" then
      some (.mk "FixedPage" [("Width", "960"), ("Height", "720")] [])
    else none,
   fun _ => none⟩

/-- A package whose document sequence references only a missing
FixedDocument part. -/
def missingDocZip : Zip :=
  ⟨fun p =>
    if p = "FixedDocumentSequence.fdseq" then
      some (.mk "FixedDocumentSequence" []
        [.mk "DocumentReference" [("Source", "/missing.fdoc")] []])
    else none,
   fun _ => none⟩

/-- A `Glyphs` element that uses the packaged font part `/f.odttf`. -/
def glyphsNode : Elem :=
  .mk "Glyphs" [("UnicodeString", "Hi"), ("FontUri", "/f.odttf")] []

/-- A 960×720 page whose only child is `glyphsNode`. -/
def fpGlyphs : Elem :=
  .mk "FixedPage" [("Width", "960"), ("Height", "720")] [glyphsNode]

/-- Like `pageZip`, but the page holds `glyphsNode` and the package packs
the font part `f.odttf`. -/
def glyphsZip : Zip :=
  ⟨fun p =>
    if p = "FixedDocumentSequence.fdseq" then
      some (.mk "FixedDocumentSequence" []
        [.mk "DocumentReference" [("Source", "/doc.fdoc")] []])
    else if p = "doc.fdoc" then
      some (.mk "FixedDocument" []
        [.mk "PageContent" [("Source", "/page.fpage")] []])
    else if p = "page.fpage" then some fpGlyphs
    else none,
   fun p => if p = "f.odttf" then some [1, 2, 3] else none⟩

/-! ## Theorems -/

theorem xorFirst32_involution (key : List ℕ) : ∀ (i : ℕ) (l : List ℕ),
    xorFirst32 key i (xorFirst32 key i l) = l := by
  intro i l
  induction l generalizing i with
  | nil => simp [xorFirst32]
  | cons b rest ih =>
    by_cases h : i < 32 <;>
      simp [xorFirst32, h, Nat.xor_assoc, ih]

theorem xorFirst32_length (key : List ℕ) : ∀ (i : ℕ) (l : List ℕ),
    (xorFirst32 key i l).length = l.length := by
  intro i l
  induction l generalizing i with
  | nil => rfl
  | cons b rest ih => simp [xorFirst32, ih]

theorem xorFirst32_getD (key : List ℕ) : ∀ (i : ℕ) (l : List ℕ) (j : ℕ), j < l.length →
    (xorFirst32 key i l).getD j 0 =
      if i + j < 32 then l.getD j 0 ^^^ key.getD ((i + j) % 16) 0 else l.getD j 0 := by
  intro i l
  induction l generalizing i with
  | nil => intro j h; simp at h
  | cons b rest ih =>
    intro j hj
    cases j with
    | zero => simp [xorFirst32]
    | succ j =>
      have hlt : j < rest.length := by simpa using Nat.lt_of_succ_lt_succ hj
      have hih := ih (i + 1) j hlt
      have harith : i + 1 + j = i + (j + 1) := by omega
      rw [harith] at hih
      simpa [xorFirst32, List.getD_cons_succ] using hih

/-- C7: applying ODTTF deobfuscation twice with the same filename yields the
original buffer — XOR with the same key is an involution, and a filename
without a UUID leaves the buffer unchanged both times. -/
theorem c7_deobfuscation_involution (buffer : List ℕ) (fileName : String) :
    deobfuscateOdttf (deobfuscateOdttf buffer fileName) fileName = buffer := by
  unfold deobfuscateOdttf
  cases h : uuidScan fileName.toList with
  | none => rfl
  | some g =>
    obtain ⟨g1, g2, g3, g4, g5⟩ := g
    exact xorFirst32_involution _ 0 buffer

/-- C3: when the filename contains a UUID, deobfuscation keeps the length,
XORs byte `i` for `i < 32` (up to the buffer length) against the key byte
`key[i % 16]` — the key being read from the UUID groups at byte offsets
`(6,4,2,0) (2,0) (2,0) (0,2) (0,2,4,6,8,10)` — and leaves bytes at
index ≥ 32 unchanged; without a UUID the buffer is returned unchanged. -/
theorem c3_deobfuscation (buffer : List ℕ) (fileName : String) :
    (∀ g1 g2 g3 g4 g5,
      uuidScan fileName.toList = some (g1, g2, g3, g4, g5) →
        (deobfuscateOdttf buffer fileName).length = buffer.length ∧
        ∀ j, j < buffer.length →
          (deobfuscateOdttf buffer fileName).getD j 0 =
            if j < 32 then
              buffer.getD j 0 ^^^
                [hexPairAt g1 6, hexPairAt g1 4, hexPairAt g1 2, hexPairAt g1 0,
                 hexPairAt g2 2, hexPairAt g2 0,
                 hexPairAt g3 2, hexPairAt g3 0,
                 hexPairAt g4 0, hexPairAt g4 2,
                 hexPairAt g5 0, hexPairAt g5 2, hexPairAt g5 4, hexPairAt g5 6,
                 hexPairAt g5 8, hexPairAt g5 10].getD (j % 16) 0
            else buffer.getD j 0) ∧
    (uuidScan fileName.toList = none → deobfuscateOdttf buffer fileName = buffer) := by
  constructor
  · intro g1 g2 g3 g4 g5 h
    unfold deobfuscateOdttf
    rw [h]
    refine ⟨xorFirst32_length _ 0 buffer, ?_⟩
    intro j hj
    have := xorFirst32_getD (odttfKey g1 g2 g3 g4 g5) 0 buffer j hj
    simpa [odttfKey] using this
  · intro h
    unfold deobfuscateOdttf
    rw [h]

/-- C3 witness: a concrete obfuscated font part name and buffer. -/
theorem c3_deobfuscation_witness :
    uuidScan "ABCDEF01-2345-6789-ABCD-EF0123456789.odttf".toList =
      some ("ABCDEF01".toList, "2345".toList, "6789".toList, "ABCD".toList,
        "EF0123456789".toList) ∧
    ((deobfuscateOdttf [7, 7, 7] "ABCDEF01-2345-6789-ABCD-EF0123456789.odttf").length = 3 ∧
      ∀ j, j < [7, 7, 7].length →
        (deobfuscateOdttf [7, 7, 7] "ABCDEF01-2345-6789-ABCD-EF0123456789.odttf").getD j 0 =
          if j < 32 then
            [7, 7, 7].getD j 0 ^^^
              [hexPairAt "ABCDEF01".toList 6, hexPairAt "ABCDEF01".toList 4,
               hexPairAt "ABCDEF01".toList 2, hexPairAt "ABCDEF01".toList 0,
               hexPairAt "2345".toList 2, hexPairAt "2345".toList 0,
               hexPairAt "6789".toList 2, hexPairAt "6789".toList 0,
               hexPairAt "ABCD".toList 0, hexPairAt "ABCD".toList 2,
               hexPairAt "EF0123456789".toList 0, hexPairAt "EF0123456789".toList 2,
               hexPairAt "EF0123456789".toList 4, hexPairAt "EF0123456789".toList 6,
               hexPairAt "EF0123456789".toList 8,
               hexPairAt "EF0123456789".toList 10].getD (j % 16) 0
          else [7, 7, 7].getD j 0) :=
  ⟨by with_unfolding_all decide,
   (c3_deobfuscation [7, 7, 7] "ABCDEF01-2345-6789-ABCD-EF0123456789.odttf").1
     "ABCDEF01".toList "2345".toList "6789".toList "ABCD".toList "EF0123456789".toList
     (by with_unfolding_all decide)⟩

/-- C8: from the same start state, `M a b L c d` and `M a b l (c−a) (d−b)`
emit identical operator sequences and leave the interpreter in the same
state; instantiated on the path strings `M 1 2 L 3 4` / `M 1 2 l 2 2`. -/
theorem c8_relative_absolute_equiv (a b c d : ℚ) (st : PSt) :
    drawTokens [Tok.cmd 'M', Tok.num a, Tok.num b, Tok.cmd 'L', Tok.num c, Tok.num d] st =
      drawTokens [Tok.cmd 'M', Tok.num a, Tok.num b, Tok.cmd 'l',
        Tok.num (c - a), Tok.num (d - b)] st ∧
    drawPathData "M 1 2 L 3 4" = drawPathData "M 1 2 l 2 2" := by
  constructor
  · simp [drawTokens, runLoop, gv, tokVal, jadd, lineStepAbs, lineStepRel]
  · have h1 : tokenizePath "M 1 2 L 3 4" =
        [Tok.cmd 'M', Tok.num 1, Tok.num 2, Tok.cmd 'L', Tok.num 3, Tok.num 4] := by
      with_unfolding_all decide
    have h2 : tokenizePath "M 1 2 l 2 2" =
        [Tok.cmd 'M', Tok.num 1, Tok.num 2, Tok.cmd 'l', Tok.num 2, Tok.num 2] := by
      with_unfolding_all decide
    unfold drawPathData
    rw [h1, h2]
    simp [drawTokens, runLoop, gv, tokVal, jadd, lineStepAbs, lineStepRel]
    norm_num

/-- C10: a `Path` element whose `Data` attribute is absent produces no PDF
operators and does not fail, even when `Fill` and/or `Stroke` are present. -/
theorem c10_path_no_data (res : Res) (node : Elem) (st : St)
    (h : getAttr node "Data" = none) :
    renderPath res node st = (st, false) := by
  unfold renderPath
  rw [h]
  rfl

/-- C10 witness: a `Path` with `Fill` and `Stroke` but no `Data`. -/
theorem c10_path_no_data_witness :
    getAttr (.mk "Path" [("Fill", "#FF0000"), ("Stroke", "#000000")] []) "Data" = none ∧
      renderPath (fun _ => none)
        (.mk "Path" [("Fill", "#FF0000"), ("Stroke", "#000000")] []) ⟨[], [], []⟩ =
        (⟨[], [], []⟩, false) :=
  ⟨by with_unfolding_all decide,
   c10_path_no_data (fun _ => none) _ ⟨[], [], []⟩ (by with_unfolding_all decide)⟩

theorem glyphFontPick_of_not_loaded (fonts : Fonts) (node : Elem) (st : St)
    (h : (truthy (getAttr node "FontUri") &&
      (fonts ((getAttr node "FontUri").getD "")).isSome) = false) :
    glyphFontPick fonts node st = ("Helvetica", st) := by
  unfold glyphFontPick
  simp [h]

/-- C9: a `Glyphs` element with empty (or absent) `UnicodeString` produces
nothing; otherwise — here with the font not loaded, so the default
sans-serif face `Helvetica` is used — the text is emitted at
`(OriginX, OriginY − 0.8 · FontRenderingEmSize)` with line breaking off,
with defaults `Fill = "#000000"`, `FontRenderingEmSize = "12"`,
`OriginX = OriginY = "0"` supplied by the `||`-defaulting visible in the
hypotheses. -/
theorem c9_glyphs (fonts : Fonts) (node : Elem) (st : St) :
    ((getAttr node "UnicodeString" = none ∨ getAttr node "UnicodeString" = some "") →
      renderGlyphs fonts node st = (st, false)) ∧
    (∀ t, getAttr node "UnicodeString" = some t → t ≠ "" →
      (truthy (getAttr node "FontUri") = false ∨
        fonts ((getAttr node "FontUri").getD "") = none) →
      ∀ sz x y,
        jsParseFloat (jsOrDefault (getAttr node "FontRenderingEmSize") "12") = some sz →
        jsParseFloat (jsOrDefault (getAttr node "OriginX") "0") = some x →
        jsParseFloat (jsOrDefault (getAttr node "OriginY") "0") = some y →
        renderGlyphs fonts node st =
          ({ st with ops := st.ops ++
            [Op.save, Op.fontOp "Helvetica", Op.fontSize (some sz),
             Op.fillColor (jsOrDefault (getAttr node "Fill") "#000000"),
             Op.text t (some x) (some (y - sz * (4 / 5))) false, Op.restore] }, false)) := by
  constructor
  · intro h
    unfold renderGlyphs
    rcases h with h | h <;> rw [h] <;> rfl
  · intro t ht htne hfont sz x y hsz hx hy
    have hne : t.isEmpty = false := by
      cases hval : t.isEmpty
      · rfl
      · exact absurd ((String.isEmpty_iff t).mp hval) htne
    have htruthy : truthy (some t) = true := by simp [truthy, hne]
    have hcond : (truthy (getAttr node "FontUri") &&
        (fonts ((getAttr node "FontUri").getD "")).isSome) = false := by
      rcases hfont with h | h <;> simp [h]
    unfold renderGlyphs
    simp [ht, htruthy, hcond, glyphFontPick_of_not_loaded _ _ _ hcond, glyphTryOps,
      hsz, hx, hy, emit, emitList, opThrows, jsub, jmul]

/-- C9 witness: `<Glyphs UnicodeString="Hi" FontRenderingEmSize="24"
OriginX="50" OriginY="100"/>` with no loaded font renders `Hi` in
Helvetica at `(50, 100 − 0.8·24)`, and an empty `UnicodeString` renders
nothing. -/
theorem c9_glyphs_witness :
    jsParseFloat (jsOrDefault (getAttr (.mk "Glyphs"
      [("UnicodeString", "Hi"), ("FontRenderingEmSize", "24"),
       ("OriginX", "50"), ("OriginY", "100")] []) "FontRenderingEmSize") "12") = some 24 ∧
    renderGlyphs (fun _ => none)
      (.mk "Glyphs" [("UnicodeString", "Hi"), ("FontRenderingEmSize", "24"),
        ("OriginX", "50"), ("OriginY", "100")] []) ⟨[], [], []⟩ =
      (⟨[Op.save, Op.fontOp "Helvetica", Op.fontSize (some 24),
          Op.fillColor (jsOrDefault (getAttr (Elem.mk "Glyphs"
            [("UnicodeString", "Hi"), ("FontRenderingEmSize", "24"),
             ("OriginX", "50"), ("OriginY", "100")] []) "Fill") "#000000"),
          Op.text "Hi" (some 50) (some (100 - 24 * (4 / 5))) false, Op.restore],
        [], []⟩, false) ∧
    renderGlyphs (fun _ => none) (.mk "Glyphs" [("UnicodeString", "")] []) ⟨[], [], []⟩ =
      (⟨[], [], []⟩, false) :=
  ⟨by with_unfolding_all decide,
   (c9_glyphs (fun _ => none) (.mk "Glyphs"
      [("UnicodeString", "Hi"), ("FontRenderingEmSize", "24"),
       ("OriginX", "50"), ("OriginY", "100")] []) ⟨[], [], []⟩).2 "Hi"
     (by with_unfolding_all decide) (by decide)
     (Or.inl (by with_unfolding_all decide)) 24 50 100
     (by with_unfolding_all decide) (by with_unfolding_all decide)
     (by with_unfolding_all decide),
   (c9_glyphs (fun _ => none) (.mk "Glyphs" [("UnicodeString", "")] []) ⟨[], [], []⟩).1
     (Or.inr (by with_unfolding_all decide))⟩

/-- C5 counterexample: at `u = (0,0)`, `v = (1,0)` we have `|u|·|v| = 0`,
and `vecAngle` returns `acos(0) = π/2`, not the `0` the claim states (the
`len || 1` guard replaces the divisor, it does not return early). -/
theorem c5_counterexample :
    vecAngle 0 0 1 0 = Real.pi / 2 ∧ vecAngleSpec 0 0 1 0 = 0 ∧
      vecAngle 0 0 1 0 ≠ 0 := by
  have h1 : vecAngle 0 0 1 0 = Real.pi / 2 := by
    unfold vecAngle
    norm_num [Real.arccos_zero]
  have h2 : vecAngleSpec 0 0 1 0 = 0 := by
    unfold vecAngleSpec
    norm_num
  refine ⟨h1, h2, ?_⟩
  rw [h1]
  exact div_ne_zero Real.pi_ne_zero two_ne_zero

/-- C5 amended: `vecAngle` agrees with the specification's formula
`sign(ux·vy − uy·vx) · acos(clamp(u·v / (|u|·|v|), −1, 1))` whenever
`|u|·|v| ≠ 0`; but when `|u|·|v| = 0` it returns `π/2` (the dot product is
then 0 and is divided by the fallback divisor 1), not 0. -/
theorem c5_vecangle_characterization (ux uy vx vy : ℝ) :
    ((ux * ux + uy * uy) * (vx * vx + vy * vy) ≠ 0 →
      vecAngle ux uy vx vy = vecAngleSpec ux uy vx vy) ∧
    ((ux * ux + uy * uy) * (vx * vx + vy * vy) = 0 →
      vecAngle ux uy vx vy = Real.pi / 2) := by
  have hA : 0 ≤ ux * ux + uy * uy := add_nonneg (mul_self_nonneg ux) (mul_self_nonneg uy)
  have hB : 0 ≤ vx * vx + vy * vy := add_nonneg (mul_self_nonneg vx) (mul_self_nonneg vy)
  have hsplit : Real.sqrt (ux ^ 2 + uy ^ 2) * Real.sqrt (vx ^ 2 + vy ^ 2) =
      Real.sqrt ((ux * ux + uy * uy) * (vx * vx + vy * vy)) := by
    rw [← Real.sqrt_mul (by positivity)]
    ring_nf
  constructor
  · intro h
    have hpos : 0 < (ux * ux + uy * uy) * (vx * vx + vy * vy) :=
      lt_of_le_of_ne (mul_nonneg hA hB) (Ne.symm h)
    have hlen : Real.sqrt ((ux * ux + uy * uy) * (vx * vx + vy * vy)) ≠ 0 :=
      (Real.sqrt_pos.mpr hpos).ne'
    unfold vecAngle vecAngleSpec
    rw [hsplit]
    simp only [hlen, if_false, ite_false]
  · intro h
    have hAB : (ux * ux + uy * uy) = 0 ∨ (vx * vx + vy * vy) = 0 := mul_eq_zero.mp h
    have hzero : ux * vx + uy * vy = 0 ∧ ux * vy - uy * vx = 0 := by
      rcases hAB with h0 | h0
      · have hx : ux = 0 := by nlinarith [sq_nonneg ux, sq_nonneg uy, mul_self_nonneg ux]
        have hy : uy = 0 := by nlinarith [mul_self_nonneg ux, mul_self_nonneg uy]
        rw [hx, hy]
        constructor <;> ring
      · have hx : vx = 0 := by nlinarith [mul_self_nonneg vx, mul_self_nonneg vy]
        have hy : vy = 0 := by nlinarith [mul_self_nonneg vx, mul_self_nonneg vy]
        rw [hx, hy]
        constructor <;> ring
    unfold vecAngle
    rw [h]
    simp [hzero.1, hzero.2, Real.arccos_zero]

/-- C5 witness: the agreement case at `u = (1,0)`, `v = (0,1)` and the
degenerate case at `u = (0,0)`, `v = (1,0)`. -/
theorem c5_vecangle_characterization_witness :
    ((1 * 1 + 0 * 0) * (0 * 0 + 1 * 1) : ℝ) ≠ 0 ∧
    vecAngle 1 0 0 1 = vecAngleSpec 1 0 0 1 ∧
    ((0 * 0 + 0 * 0) * (1 * 1 + 0 * 0) : ℝ) = 0 ∧
    vecAngle 0 0 1 0 = Real.pi / 2 :=
  ⟨by norm_num, (c5_vecangle_characterization 1 0 0 1).1 (by norm_num),
   by norm_num, (c5_vecangle_characterization 0 0 1 0).2 (by norm_num)⟩

/-- Net graphics-state stack depth of an operator stream: saves minus
restores. -/
def saveDepth (ops : List Op) : ℤ :=
  (ops.count Op.save : ℤ) - (ops.count Op.restore : ℤ)

theorem saveDepth_append (a b : List Op) :
    saveDepth (a ++ b) = saveDepth a + saveDepth b := by
  simp [saveDepth, List.count_append]
  ring

theorem saveDepth_of_noSR {l : List Op} (h : Op.save ∉ l ∧ Op.restore ∉ l) :
    saveDepth l = 0 := by
  simp [saveDepth, List.count_eq_zero.mpr h.1, List.count_eq_zero.mpr h.2]

theorem emit_save (st : St) :
    emit st Op.save = ({ st with ops := st.ops ++ [Op.save] }, false) := by
  simp [emit, opThrows]

theorem emit_restore (st : St) :
    emit st Op.restore = ({ st with ops := st.ops ++ [Op.restore] }, false) := by
  simp [emit, opThrows]

theorem emit_ops_cases (st : St) (op : Op) :
    (emit st op).1.ops = st.ops ∨ (emit st op).1.ops = st.ops ++ [op] := by
  unfold emit
  split <;> simp

theorem emit_fields (st : St) (op : Op) :
    (emit st op).1.docFonts = st.docFonts ∧ (emit st op).1.reg = st.reg := by
  unfold emit
  split <;> simp

theorem emitList_ops_prefix (l : List Op) : ∀ st : St,
    ∃ l', (emitList st l).1.ops = st.ops ++ l' ∧ l' <+: l ∧
      (emitList st l).1.docFonts = st.docFonts ∧ (emitList st l).1.reg = st.reg := by
  induction l with
  | nil => intro st; exact ⟨[], by simp [emitList], List.nil_prefix, rfl, rfl⟩
  | cons op rest ih =>
    intro st
    rw [emitList]
    rcases hemit : emit st op with ⟨st1, b⟩
    cases b
    · have h1 : st1 = { st with ops := st.ops ++ [op] } := by
        unfold emit at hemit
        revert hemit
        split
        · intro hx; cases hx
        · intro hx; cases hx; rfl
      subst h1
      obtain ⟨l', hops, hpre, hdf, hreg⟩ := ih { st with ops := st.ops ++ [op] }
      exact ⟨op :: l', by simpa using hops, List.cons_prefix_cons.mpr ⟨rfl, hpre⟩,
        by simpa using hdf, by simpa using hreg⟩
    · have h1 : st1 = st := by
        unfold emit at hemit
        revert hemit
        split
        · intro h; cases h; rfl
        · intro h; cases h
      subst h1
      exact ⟨[], by simp, List.nil_prefix, rfl, rfl⟩

theorem emitList_depth_of_noSR {l : List Op} (h : Op.save ∉ l ∧ Op.restore ∉ l) (st : St) :
    saveDepth (emitList st l).1.ops = saveDepth st.ops := by
  obtain ⟨l', hops, hpre, -, -⟩ := emitList_ops_prefix l st
  have hsub : Op.save ∉ l' ∧ Op.restore ∉ l' :=
    ⟨fun hm => h.1 (hpre.sublist.subset hm), fun hm => h.2 (hpre.sublist.subset hm)⟩
  rw [hops, saveDepth_append, saveDepth_of_noSR hsub]
  ring

theorem runLoop_noSR (opnd : ℕ) (step : PSt → (ℕ → JQ) → Op × PSt)
    (hstep : ∀ s g, (step s g).1 ≠ Op.save ∧ (step s g).1 ≠ Op.restore) :
    ∀ (n : ℕ) (ts : List Tok) (st : PSt), ts.length ≤ n →
      Op.save ∉ (runLoop opnd step ts st).1 ∧ Op.restore ∉ (runLoop opnd step ts st).1 := by
  intro n
  induction n with
  | zero =>
    intro ts st h
    rw [runLoop.eq_def]
    split
    · simp_all
    · simp
  | succ n ih =>
    intro ts st h
    rw [runLoop.eq_def]
    split
    · rename_i q rest
      rcases hst : step st (fun k => if k = 0 then some q else gv rest (k - 1)) with ⟨op, st1⟩
      rcases hrun : runLoop opnd step (rest.drop (opnd - 1)) st1 with ⟨ops, st2, r⟩
      simp only [hst, hrun]
      have hle : (rest.drop (opnd - 1)).length ≤ n := by
        simp only [List.length_cons] at h
        simp [List.length_drop]
        omega
      have hihx := ih (rest.drop (opnd - 1)) st1 hle
      rw [hrun] at hihx
      have hopx := hstep st (fun k => if k = 0 then some q else gv rest (k - 1))
      rw [hst] at hopx
      simp only [List.mem_cons, not_or]
      constructor
      · exact ⟨fun hx => hopx.1 hx.symm, hihx.1⟩
      · exact ⟨fun hx => hopx.2 hx.symm, hihx.2⟩
    · simp

theorem lineStepAbs_noSR : ∀ (s : PSt) (g : ℕ → JQ),
    (lineStepAbs s g).1 ≠ Op.save ∧ (lineStepAbs s g).1 ≠ Op.restore := by
  intro s g
  constructor <;> simp [lineStepAbs]

theorem lineStepRel_noSR : ∀ (s : PSt) (g : ℕ → JQ),
    (lineStepRel s g).1 ≠ Op.save ∧ (lineStepRel s g).1 ≠ Op.restore := by
  intro s g
  constructor <;> simp [lineStepRel]

theorem hStepAbs_noSR : ∀ (s : PSt) (g : ℕ → JQ),
    (hStepAbs s g).1 ≠ Op.save ∧ (hStepAbs s g).1 ≠ Op.restore := by
  intro s g
  constructor <;> simp [hStepAbs]

theorem hStepRel_noSR : ∀ (s : PSt) (g : ℕ → JQ),
    (hStepRel s g).1 ≠ Op.save ∧ (hStepRel s g).1 ≠ Op.restore := by
  intro s g
  constructor <;> simp [hStepRel]

theorem vStepAbs_noSR : ∀ (s : PSt) (g : ℕ → JQ),
    (vStepAbs s g).1 ≠ Op.save ∧ (vStepAbs s g).1 ≠ Op.restore := by
  intro s g
  constructor <;> simp [vStepAbs]

theorem vStepRel_noSR : ∀ (s : PSt) (g : ℕ → JQ),
    (vStepRel s g).1 ≠ Op.save ∧ (vStepRel s g).1 ≠ Op.restore := by
  intro s g
  constructor <;> simp [vStepRel]

theorem curveStepAbs_noSR : ∀ (s : PSt) (g : ℕ → JQ),
    (curveStepAbs s g).1 ≠ Op.save ∧ (curveStepAbs s g).1 ≠ Op.restore := by
  intro s g
  constructor <;> simp [curveStepAbs]

theorem curveStepRel_noSR : ∀ (s : PSt) (g : ℕ → JQ),
    (curveStepRel s g).1 ≠ Op.save ∧ (curveStepRel s g).1 ≠ Op.restore := by
  intro s g
  constructor <;> simp [curveStepRel]

theorem quadStepAbs_noSR : ∀ (s : PSt) (g : ℕ → JQ),
    (quadStepAbs s g).1 ≠ Op.save ∧ (quadStepAbs s g).1 ≠ Op.restore := by
  intro s g
  constructor <;> simp [quadStepAbs]

theorem quadStepRel_noSR : ∀ (s : PSt) (g : ℕ → JQ),
    (quadStepRel s g).1 ≠ Op.save ∧ (quadStepRel s g).1 ≠ Op.restore := by
  intro s g
  constructor <;> simp [quadStepRel]

theorem arcStepAbs_noSR : ∀ (s : PSt) (g : ℕ → JQ),
    (arcStepAbs s g).1 ≠ Op.save ∧ (arcStepAbs s g).1 ≠ Op.restore := by
  intro s g
  constructor <;> simp [arcStepAbs]

theorem arcStepRel_noSR : ∀ (s : PSt) (g : ℕ → JQ),
    (arcStepRel s g).1 ≠ Op.save ∧ (arcStepRel s g).1 ≠ Op.restore := by
  intro s g
  constructor <;> simp [arcStepRel]

theorem runLoop_noSR' (opnd : ℕ) (step : PSt → (ℕ → JQ) → Op × PSt)
    (hstep : ∀ s g, (step s g).1 ≠ Op.save ∧ (step s g).1 ≠ Op.restore)
    (ts : List Tok) (st : PSt) :
    Op.save ∉ (runLoop opnd step ts st).1 ∧ Op.restore ∉ (runLoop opnd step ts st).1 :=
  runLoop_noSR opnd step hstep ts.length ts st le_rfl

theorem drawTokens_noSR :
    ∀ (n : ℕ) (ts : List Tok) (st : PSt), ts.length ≤ n →
      Op.save ∉ (drawTokens ts st).1 ∧ Op.restore ∉ (drawTokens ts st).1 := by
  intro n
  induction n with
  | zero =>
    intro ts st h
    rw [drawTokens.eq_def]
    split
    all_goals try (simp at h)
    · simp
  | succ n ih =>
    intro ts st h
    rw [drawTokens.eq_def]
    split
    -- end of tokens
    · simp
    -- number in command position: skipped
    · rename_i rest
      exact ih rest st (by simp at h; omega)
    -- `F`: consumed, no effect
    · rename_i rest
      exact ih rest st (by simp at h; omega)
    -- `M` loop
    · rename_i stv rest
      have hres := runLoop_noSR' 2 lineStepAbs lineStepAbs_noSR (rest.drop 2) ⟨gv rest 0, gv rest 1, gv rest 0, gv rest 1⟩
      have hrec := ih (runLoop 2 lineStepAbs (rest.drop 2) ⟨gv rest 0, gv rest 1, gv rest 0, gv rest 1⟩).2.2
          (runLoop 2 lineStepAbs (rest.drop 2) ⟨gv rest 0, gv rest 1, gv rest 0, gv rest 1⟩).2.1
          (le_trans (runLoop_rest_le _ _ _ _) (by simp at h ⊢; omega))
      unfold_let
      split
      rename_i dops st3 heq
      rw [heq] at hrec
      simp only [List.mem_cons, List.mem_append, not_or]
      exact ⟨⟨by simp, hres.1, by simpa using hrec.1⟩, ⟨by simp, hres.2, by simpa using hrec.2⟩⟩
    -- `m` loop
    · rename_i stv rest
      have hres := runLoop_noSR' 2 lineStepRel lineStepRel_noSR (rest.drop 2) ⟨jadd st.cx (gv rest 0), jadd st.cy (gv rest 1), jadd st.cx (gv rest 0), jadd st.cy (gv rest 1)⟩
      have hrec := ih (runLoop 2 lineStepRel (rest.drop 2) ⟨jadd st.cx (gv rest 0), jadd st.cy (gv rest 1), jadd st.cx (gv rest 0), jadd st.cy (gv rest 1)⟩).2.2
          (runLoop 2 lineStepRel (rest.drop 2) ⟨jadd st.cx (gv rest 0), jadd st.cy (gv rest 1), jadd st.cx (gv rest 0), jadd st.cy (gv rest 1)⟩).2.1
          (le_trans (runLoop_rest_le _ _ _ _) (by simp at h ⊢; omega))
      unfold_let
      split
      rename_i dops st3 heq
      rw [heq] at hrec
      simp only [List.mem_cons, List.mem_append, not_or]
      exact ⟨⟨by simp, hres.1, by simpa using hrec.1⟩, ⟨by simp, hres.2, by simpa using hrec.2⟩⟩
    -- `L` loop
    · rename_i stv rest
      have hres := runLoop_noSR' 2 lineStepAbs lineStepAbs_noSR rest st
      have hrec := ih (runLoop 2 lineStepAbs rest st).2.2
          (runLoop 2 lineStepAbs rest st).2.1
          (le_trans (runLoop_rest_le _ _ _ _) (by simp at h; omega))
      unfold_let
      split
      rename_i dops st3 heq
      rw [heq] at hrec
      simp only [List.mem_cons, List.mem_append, not_or]
      exact ⟨⟨hres.1, by simpa using hrec.1⟩, ⟨hres.2, by simpa using hrec.2⟩⟩
    -- `l` loop
    · rename_i stv rest
      have hres := runLoop_noSR' 2 lineStepRel lineStepRel_noSR rest st
      have hrec := ih (runLoop 2 lineStepRel rest st).2.2
          (runLoop 2 lineStepRel rest st).2.1
          (le_trans (runLoop_rest_le _ _ _ _) (by simp at h; omega))
      unfold_let
      split
      rename_i dops st3 heq
      rw [heq] at hrec
      simp only [List.mem_cons, List.mem_append, not_or]
      exact ⟨⟨hres.1, by simpa using hrec.1⟩, ⟨hres.2, by simpa using hrec.2⟩⟩
    -- `H` loop
    · rename_i stv rest
      have hres := runLoop_noSR' 1 hStepAbs hStepAbs_noSR rest st
      have hrec := ih (runLoop 1 hStepAbs rest st).2.2
          (runLoop 1 hStepAbs rest st).2.1
          (le_trans (runLoop_rest_le _ _ _ _) (by simp at h; omega))
      unfold_let
      split
      rename_i dops st3 heq
      rw [heq] at hrec
      simp only [List.mem_cons, List.mem_append, not_or]
      exact ⟨⟨hres.1, by simpa using hrec.1⟩, ⟨hres.2, by simpa using hrec.2⟩⟩
    -- `h` loop
    · rename_i stv rest
      have hres := runLoop_noSR' 1 hStepRel hStepRel_noSR rest st
      have hrec := ih (runLoop 1 hStepRel rest st).2.2
          (runLoop 1 hStepRel rest st).2.1
          (le_trans (runLoop_rest_le _ _ _ _) (by simp at h; omega))
      unfold_let
      split
      rename_i dops st3 heq
      rw [heq] at hrec
      simp only [List.mem_cons, List.mem_append, not_or]
      exact ⟨⟨hres.1, by simpa using hrec.1⟩, ⟨hres.2, by simpa using hrec.2⟩⟩
    -- `V` loop
    · rename_i stv rest
      have hres := runLoop_noSR' 1 vStepAbs vStepAbs_noSR rest st
      have hrec := ih (runLoop 1 vStepAbs rest st).2.2
          (runLoop 1 vStepAbs rest st).2.1
          (le_trans (runLoop_rest_le _ _ _ _) (by simp at h; omega))
      unfold_let
      split
      rename_i dops st3 heq
      rw [heq] at hrec
      simp only [List.mem_cons, List.mem_append, not_or]
      exact ⟨⟨hres.1, by simpa using hrec.1⟩, ⟨hres.2, by simpa using hrec.2⟩⟩
    -- `v` loop
    · rename_i stv rest
      have hres := runLoop_noSR' 1 vStepRel vStepRel_noSR rest st
      have hrec := ih (runLoop 1 vStepRel rest st).2.2
          (runLoop 1 vStepRel rest st).2.1
          (le_trans (runLoop_rest_le _ _ _ _) (by simp at h; omega))
      unfold_let
      split
      rename_i dops st3 heq
      rw [heq] at hrec
      simp only [List.mem_cons, List.mem_append, not_or]
      exact ⟨⟨hres.1, by simpa using hrec.1⟩, ⟨hres.2, by simpa using hrec.2⟩⟩
    -- `C` loop
    · rename_i stv rest
      have hres := runLoop_noSR' 6 curveStepAbs curveStepAbs_noSR rest st
      have hrec := ih (runLoop 6 curveStepAbs rest st).2.2
          (runLoop 6 curveStepAbs rest st).2.1
          (le_trans (runLoop_rest_le _ _ _ _) (by simp at h; omega))
      unfold_let
      split
      rename_i dops st3 heq
      rw [heq] at hrec
      simp only [List.mem_cons, List.mem_append, not_or]
      exact ⟨⟨hres.1, by simpa using hrec.1⟩, ⟨hres.2, by simpa using hrec.2⟩⟩
    -- `c` loop
    · rename_i stv rest
      have hres := runLoop_noSR' 6 curveStepRel curveStepRel_noSR rest st
      have hrec := ih (runLoop 6 curveStepRel rest st).2.2
          (runLoop 6 curveStepRel rest st).2.1
          (le_trans (runLoop_rest_le _ _ _ _) (by simp at h; omega))
      unfold_let
      split
      rename_i dops st3 heq
      rw [heq] at hrec
      simp only [List.mem_cons, List.mem_append, not_or]
      exact ⟨⟨hres.1, by simpa using hrec.1⟩, ⟨hres.2, by simpa using hrec.2⟩⟩
    -- `Q` loop
    · rename_i stv rest
      have hres := runLoop_noSR' 4 quadStepAbs quadStepAbs_noSR rest st
      have hrec := ih (runLoop 4 quadStepAbs rest st).2.2
          (runLoop 4 quadStepAbs rest st).2.1
          (le_trans (runLoop_rest_le _ _ _ _) (by simp at h; omega))
      unfold_let
      split
      rename_i dops st3 heq
      rw [heq] at hrec
      simp only [List.mem_cons, List.mem_append, not_or]
      exact ⟨⟨hres.1, by simpa using hrec.1⟩, ⟨hres.2, by simpa using hrec.2⟩⟩
    -- `q` loop
    · rename_i stv rest
      have hres := runLoop_noSR' 4 quadStepRel quadStepRel_noSR rest st
      have hrec := ih (runLoop 4 quadStepRel rest st).2.2
          (runLoop 4 quadStepRel rest st).2.1
          (le_trans (runLoop_rest_le _ _ _ _) (by simp at h; omega))
      unfold_let
      split
      rename_i dops st3 heq
      rw [heq] at hrec
      simp only [List.mem_cons, List.mem_append, not_or]
      exact ⟨⟨hres.1, by simpa using hrec.1⟩, ⟨hres.2, by simpa using hrec.2⟩⟩
    -- `A` loop
    · rename_i stv rest
      have hres := runLoop_noSR' 7 arcStepAbs arcStepAbs_noSR rest st
      have hrec := ih (runLoop 7 arcStepAbs rest st).2.2
          (runLoop 7 arcStepAbs rest st).2.1
          (le_trans (runLoop_rest_le _ _ _ _) (by simp at h; omega))
      unfold_let
      split
      rename_i dops st3 heq
      rw [heq] at hrec
      simp only [List.mem_cons, List.mem_append, not_or]
      exact ⟨⟨hres.1, by simpa using hrec.1⟩, ⟨hres.2, by simpa using hrec.2⟩⟩
    -- `a` loop
    · rename_i stv rest
      have hres := runLoop_noSR' 7 arcStepRel arcStepRel_noSR rest st
      have hrec := ih (runLoop 7 arcStepRel rest st).2.2
          (runLoop 7 arcStepRel rest st).2.1
          (le_trans (runLoop_rest_le _ _ _ _) (by simp at h; omega))
      unfold_let
      split
      rename_i dops st3 heq
      rw [heq] at hrec
      simp only [List.mem_cons, List.mem_append, not_or]
      exact ⟨⟨hres.1, by simpa using hrec.1⟩, ⟨hres.2, by simpa using hrec.2⟩⟩
    -- `Z`: close subpath
    · rename_i stv rest
      have hrec := ih rest { st with cx := st.sx, cy := st.sy } (by simp at h; omega)
      split
      rename_i dops st2 heq
      rw [heq] at hrec
      simp only [List.mem_cons, not_or]
      exact ⟨⟨by simp, by simpa using hrec.1⟩, ⟨by simp, by simpa using hrec.2⟩⟩
    -- `z`: close subpath
    · rename_i stv rest
      have hrec := ih rest { st with cx := st.sx, cy := st.sy } (by simp at h; omega)
      split
      rename_i dops st2 heq
      rw [heq] at hrec
      simp only [List.mem_cons, not_or]
      exact ⟨⟨by simp, by simpa using hrec.1⟩, ⟨by simp, by simpa using hrec.2⟩⟩
    -- unknown command: skipped
    · refine ih _ st ?_
      simp at h
      omega



theorem applyStrokeStyle_noSR (node : Elem) (thickness : JQ) :
    Op.save ∉ applyStrokeStyle node thickness ∧
      Op.restore ∉ applyStrokeStyle node thickness := by
  unfold applyStrokeStyle
  constructor <;> (unfold_let; split <;> simp)

theorem drawPathData_noSR (d : String) :
    Op.save ∉ drawPathData d ∧ Op.restore ∉ drawPathData d :=
  drawTokens_noSR (tokenizePath d).length (tokenizePath d) _ le_rfl

theorem saveDepth_nil : saveDepth [] = 0 := by decide

theorem saveDepth_single_save : saveDepth [Op.save] = 1 := by decide

theorem saveDepth_single_restore : saveDepth [Op.restore] = -1 := by decide

theorem glyphFontPick_ops (fonts : Fonts) (node : Elem) (st : St) :
    (glyphFontPick fonts node st).2.ops = st.ops := by
  unfold glyphFontPick
  unfold_let
  split
  · split <;> rfl
  · rfl

theorem glyphTryOps_noSR (node : Elem) (fontName : String) :
    Op.save ∉ glyphTryOps node fontName ∧ Op.restore ∉ glyphTryOps node fontName := by
  unfold glyphTryOps
  constructor <;> simp

/-- `renderGlyphs` never throws; it only appends operators and its net
save/restore contribution is zero (the final `restore` is outside the
`try`). -/
theorem renderGlyphs_delta (fonts : Fonts) (node : Elem) (st : St) :
    ∃ delta, (renderGlyphs fonts node st).1.ops = st.ops ++ delta ∧
      saveDepth delta = 0 ∧ (renderGlyphs fonts node st).2 = false := by
  unfold renderGlyphs
  unfold_let
  split
  · exact ⟨[], by simp, saveDepth_nil, by simp⟩
  · obtain ⟨l', hops, hpre, -, -⟩ :=
      emitList_ops_prefix
        (glyphTryOps node (glyphFontPick fonts node (emit st Op.save).1).1)
        (glyphFontPick fonts node (emit st Op.save).1).2
    have hnoSR : Op.save ∉ l' ∧ Op.restore ∉ l' := by
      have h0 := glyphTryOps_noSR node (glyphFontPick fonts node (emit st Op.save).1).1
      exact ⟨fun hm => h0.1 (hpre.sublist.subset hm), fun hm => h0.2 (hpre.sublist.subset hm)⟩
    refine ⟨Op.save :: (l' ++ [Op.restore]), ?_, ?_, by simp⟩
    · rw [emit_restore]
      simp only []
      rw [hops, glyphFontPick_ops, emit_save]
      simp
    · have : saveDepth (Op.save :: (l' ++ [Op.restore])) =
          saveDepth ([Op.save] ++ l' ++ [Op.restore]) := by simp
      rw [this, saveDepth_append, saveDepth_append, saveDepth_single_save,
        saveDepth_single_restore, saveDepth_of_noSR hnoSR]
      ring

theorem emit_save_ops (st : St) : (emit st Op.save).1.ops = st.ops ++ [Op.save] := by
  simp [emit_save]

theorem emit_restore_ops (st : St) : (emit st Op.restore).1.ops = st.ops ++ [Op.restore] := by
  simp [emit_restore]

theorem prefix_noSR {l l' : List Op} (h : Op.save ∉ l ∧ Op.restore ∉ l)
    (hpre : l' <+: l) : Op.save ∉ l' ∧ Op.restore ∉ l' :=
  ⟨fun hm => h.1 (hpre.sublist.subset hm), fun hm => h.2 (hpre.sublist.subset hm)⟩


theorem imageFillTryOps_noSR (brush : Brush) (img : List ℕ) (data : String) :
    Op.save ∉ imageFillTryOps brush img data ∧ Op.restore ∉ imageFillTryOps brush img data := by
  unfold imageFillTryOps
  constructor <;>
    (unfold_let
     split <;> simp [List.mem_append, (drawPathData_noSR data).1, (drawPathData_noSR data).2])

/-- `renderImageFill` only appends operators; its net save/restore
contribution is 0 when it returns normally and 1 when the stroke styling
throws (that throw happens after the second `doc.save()`). -/
theorem renderImageFill_delta (res : Res) (data : String) (key : String)
    (stroke : Option String) (node : Elem) (thickness : JQ) (st : St) :
    ∃ delta, (renderImageFill res data key stroke node thickness st).1.ops = st.ops ++ delta ∧
      ((renderImageFill res data key stroke node thickness st).2 = false →
        saveDepth delta = 0) ∧
      ((renderImageFill res data key stroke node thickness st).2 = true →
        saveDepth delta = 1) := by
  rcases hE : renderImageFill res data key stroke node thickness st with ⟨stOut, bOut⟩
  simp only []
  unfold renderImageFill at hE
  split at hE
  · injection hE with h1 h2
    subst h1; subst h2
    exact ⟨[], by simp, fun _ => saveDepth_nil, by simp⟩
  · split at hE
    · injection hE with h1 h2
      subst h1; subst h2
      exact ⟨[], by simp, fun _ => saveDepth_nil, by simp⟩
    · rename_i brush hkey hbuf img himg
      obtain ⟨l1, hops1, hpre1, -, -⟩ :=
        emitList_ops_prefix (imageFillTryOps brush img data) (emit st Op.save).1
      have hl1 : Op.save ∉ l1 ∧ Op.restore ∉ l1 :=
        prefix_noSR (imageFillTryOps_noSR brush img data) hpre1
      have h3 : (emit (emitList (emit st Op.save).1 (imageFillTryOps brush img data)).1
          Op.restore).1.ops = st.ops ++ ([Op.save] ++ l1 ++ [Op.restore]) := by
        simp only [emit_restore]
        rw [hops1]
        simp [emit_save]
      have hd3 : saveDepth ([Op.save] ++ l1 ++ [Op.restore]) = 0 := by
        rw [saveDepth_append, saveDepth_append, saveDepth_single_save,
          saveDepth_single_restore, saveDepth_of_noSR hl1]
        ring
      unfold_let at hE
      split at hE
      · -- a stroke is present
        obtain ⟨l2, hops2, hpre2, -, -⟩ :=
          emitList_ops_prefix (applyStrokeStyle node thickness)
            (emit (emit (emitList (emit st Op.save).1
              (imageFillTryOps brush img data)).1 Op.restore).1 Op.save).1
        have hl2 : Op.save ∉ l2 ∧ Op.restore ∉ l2 :=
          prefix_noSR (applyStrokeStyle_noSR node thickness) hpre2
        have h4 : (emit (emit (emitList (emit st Op.save).1
            (imageFillTryOps brush img data)).1 Op.restore).1 Op.save).1.ops =
            st.ops ++ ([Op.save] ++ l1 ++ [Op.restore] ++ [Op.save]) := by
          rw [emit_save_ops, h3]
          simp
        split at hE
        · -- the styling threw: unmatched second save
          rename_i st5 heq5
          injection hE with h1 h2
          subst h1; subst h2
          rw [heq5] at hops2
          refine ⟨[Op.save] ++ l1 ++ [Op.restore] ++ [Op.save] ++ l2, ?_, by simp, ?_⟩
          · rw [hops2, h4]
            simp
          · intro
            simp only [saveDepth_append, saveDepth_single_save, saveDepth_single_restore,
              saveDepth_of_noSR hl1, saveDepth_of_noSR hl2]
            ring
        · -- styling succeeded: stroke the path under a balanced save/restore
          rename_i st5 heq5
          injection hE with h1 h2
          subst h1; subst h2
          rw [heq5] at hops2
          obtain ⟨l3, hops3, hpre3, -, -⟩ :=
            emitList_ops_prefix (drawPathData data ++ [Op.strokeOp]) st5
          have hl3 : Op.save ∉ l3 ∧ Op.restore ∉ l3 := by
            refine prefix_noSR ⟨?_, ?_⟩ hpre3 <;>
              simp [List.mem_append, (drawPathData_noSR data).1, (drawPathData_noSR data).2]
          refine ⟨[Op.save] ++ l1 ++ [Op.restore] ++ [Op.save] ++ l2 ++ l3 ++ [Op.restore],
            ?_, ?_, by simp⟩
          · simp only [emit_restore]
            rw [hops3, hops2, h4]
            simp
          · intro
            simp only [saveDepth_append, saveDepth_single_save, saveDepth_single_restore,
              saveDepth_of_noSR hl1, saveDepth_of_noSR hl2, saveDepth_of_noSR hl3]
            ring
      · -- no stroke: done after the balanced image fill
        injection hE with h1 h2
        subst h1; subst h2
        exact ⟨[Op.save] ++ l1 ++ [Op.restore], by simpa using h3, fun _ => hd3, by simp⟩

/-- `renderPath` only appends operators; its net save/restore contribution
is 0 on normal return and 1 when the stroke styling throws (the styling
runs after `doc.save()` and outside the `try`). -/
theorem renderPath_delta (res : Res) (node : Elem) (st : St) :
    ∃ delta, (renderPath res node st).1.ops = st.ops ++ delta ∧
      ((renderPath res node st).2 = false → saveDepth delta = 0) ∧
      ((renderPath res node st).2 = true → saveDepth delta = 1) := by
  rcases hE : renderPath res node st with ⟨stOut, bOut⟩
  simp only []
  unfold renderPath at hE
  unfold_let at hE
  split at hE
  · injection hE with h1 h2
    subst h1; subst h2
    exact ⟨[], by simp, fun _ => saveDepth_nil, by simp⟩
  · split at hE
    · injection hE with h1 h2
      subst h1; subst h2
      exact ⟨[], by simp, fun _ => saveDepth_nil, by simp⟩
    · split at hE
      · -- a `{StaticResource KEY}` fill: delegated to `renderImageFill`
        rename_i key hkey
        obtain ⟨delta, hd1, hd2, hd3⟩ := renderImageFill_delta res ((getAttr node "Data").getD "")
          key (getAttr node "Stroke") node
          (jsParseFloat (jsOrDefault (getAttr node "StrokeThickness") "1")) st
        rw [hE] at hd1 hd2 hd3
        exact ⟨delta, hd1, hd2, hd3⟩
      · -- plain fill/stroke path
        split at hE
        · -- the stroke styling threw after the save
          rename_i st2 heq2
          injection hE with h1 h2
          subst h1; subst h2
          have hsty : ∃ l2, st2.ops = (emit st Op.save).1.ops ++ l2 ∧
              Op.save ∉ l2 ∧ Op.restore ∉ l2 := by
            revert heq2
            split
            · intro heq2
              obtain ⟨l2, hops2, hpre2, -, -⟩ :=
                emitList_ops_prefix (applyStrokeStyle node
                  (jsParseFloat (jsOrDefault (getAttr node "StrokeThickness") "1")))
                  (emit st Op.save).1
              rw [heq2] at hops2
              exact ⟨l2, hops2, prefix_noSR (applyStrokeStyle_noSR node _) hpre2⟩
            · intro heq2
              cases heq2
          obtain ⟨l2, hops2, hl2⟩ := hsty
          refine ⟨[Op.save] ++ l2, ?_, by simp, ?_⟩
          · rw [hops2, emit_save_ops]
            simp
          · intro
            simp only [saveDepth_append, saveDepth_single_save, saveDepth_of_noSR hl2]
            ring
        · -- styling succeeded (or no stroke): balanced save/restore
          rename_i st2 heq2
          injection hE with h1 h2
          subst h1; subst h2
          have hsty : ∃ l2, st2.ops = (emit st Op.save).1.ops ++ l2 ∧
              Op.save ∉ l2 ∧ Op.restore ∉ l2 := by
            revert heq2
            split
            · intro heq2
              obtain ⟨l2, hops2, hpre2, -, -⟩ :=
                emitList_ops_prefix (applyStrokeStyle node
                  (jsParseFloat (jsOrDefault (getAttr node "StrokeThickness") "1")))
                  (emit st Op.save).1
              rw [heq2] at hops2
              exact ⟨l2, hops2, prefix_noSR (applyStrokeStyle_noSR node _) hpre2⟩
            · intro heq2
              cases heq2
              exact ⟨[], by simp, by simp, by simp⟩
          obtain ⟨l2, hops2, hl2⟩ := hsty
          obtain ⟨l3, hops3, hpre3, -, -⟩ :=
            emitList_ops_prefix (drawPathData ((getAttr node "Data").getD "") ++
              (if (truthy (getAttr node "Fill") && truthy (getAttr node "Stroke")) = true then
                [Op.fillAndStroke ((getAttr node "Fill").getD "")
                  ((getAttr node "Stroke").getD "")]
              else if truthy (getAttr node "Fill") = true then
                [Op.fill ((getAttr node "Fill").getD "")]
              else [Op.strokeOp])) st2
          have hl3 : Op.save ∉ l3 ∧ Op.restore ∉ l3 := by
            refine prefix_noSR ⟨?_, ?_⟩ hpre3 <;>
              (split <;> (try split) <;>
                simp [List.mem_append, (drawPathData_noSR _).1, (drawPathData_noSR _).2])
          refine ⟨[Op.save] ++ l2 ++ l3 ++ [Op.restore], ?_, ?_, by simp⟩
          · rw [emit_restore_ops, hops3, hops2, emit_save_ops]
            simp
          · intro
            simp only [saveDepth_append, saveDepth_single_save, saveDepth_single_restore,
              saveDepth_of_noSR hl2, saveDepth_of_noSR hl3]
            ring


theorem canvasRtStep_delta (node : Elem) (st1 : St) :
    ∃ l, (canvasRtStep node st1).1.ops = st1.ops ++ l ∧
      Op.save ∉ l ∧ Op.restore ∉ l := by
  unfold canvasRtStep
  split
  · split
    · exact ⟨[], by simp, by simp, by simp⟩
    · rename_i rt hrt hne
      unfold_let
      rcases emit_ops_cases st1 (Op.transform (atNum (List.map jsNumber (rt.splitOn ",")) 0)
        (atNum (List.map jsNumber (rt.splitOn ",")) 1)
        (atNum (List.map jsNumber (rt.splitOn ",")) 2)
        (atNum (List.map jsNumber (rt.splitOn ",")) 3)
        (atNum (List.map jsNumber (rt.splitOn ",")) 4)
        (atNum (List.map jsNumber (rt.splitOn ",")) 5)) with hcase | hcase
      · exact ⟨[], by rw [hcase]; simp, by simp, by simp⟩
      · exact ⟨[Op.transform (atNum (List.map jsNumber (rt.splitOn ",")) 0)
          (atNum (List.map jsNumber (rt.splitOn ",")) 1)
          (atNum (List.map jsNumber (rt.splitOn ",")) 2)
          (atNum (List.map jsNumber (rt.splitOn ",")) 3)
          (atNum (List.map jsNumber (rt.splitOn ",")) 4)
          (atNum (List.map jsNumber (rt.splitOn ",")) 5)], by rw [hcase], by simp, by simp⟩
  · exact ⟨[], by simp, by simp, by simp⟩

theorem canvasClipStep_delta (node : Elem) (st2 : St) :
    ∃ l, (canvasClipStep node st2).1.ops = st2.ops ++ l ∧
      Op.save ∉ l ∧ Op.restore ∉ l := by
  unfold canvasClipStep
  split
  · split
    · exact ⟨[], by simp, by simp, by simp⟩
    · rename_i clip hclip hne
      obtain ⟨l', hops, hpre, -, -⟩ := emitList_ops_prefix (drawPathData clip) st2
      have hl' : Op.save ∉ l' ∧ Op.restore ∉ l' :=
        prefix_noSR (drawPathData_noSR clip) hpre
      split
      · rename_i s heqS
        rw [heqS] at hops
        exact ⟨l', by simpa using hops, hl'.1, hl'.2⟩
      · rename_i s heqS
        rw [heqS] at hops
        rcases emit_ops_cases s Op.clip with hcase | hcase
        · exact ⟨l', by rw [hcase]; simpa using hops, hl'.1, hl'.2⟩
        · refine ⟨l' ++ [Op.clip], ?_, by simp [hl'.1], by simp [hl'.2]⟩
          rw [hcase]
          simp at hops
          simp [hops]
  · exact ⟨[], by simp, by simp, by simp⟩

/-- The invariant of every rendering function: operators are only
appended, a normal return contributes net save/restore depth 0, and a
propagating exception leaves at least one unmatched save. -/
def DeltaSpec (out : St × Bool) (st : St) : Prop :=
  ∃ delta, out.1.ops = st.ops ++ delta ∧
    (out.2 = false → saveDepth delta = 0) ∧
    (out.2 = true → 1 ≤ saveDepth delta)

theorem deltaSpec_id (st : St) : DeltaSpec (st, false) st :=
  ⟨[], by simp, fun _ => saveDepth_nil, by simp⟩

theorem render_deltaSpec :
    ∀ n : ℕ,
      (∀ (res : Res) (fonts : Fonts) (e : Elem) (st : St), sizeOf e ≤ n →
        DeltaSpec (renderCanvas res fonts e st) st) ∧
      (∀ (res : Res) (fonts : Fonts) (e : Elem) (st : St), sizeOf e ≤ n →
        DeltaSpec (renderElement res fonts e st) st) ∧
      (∀ (res : Res) (fonts : Fonts) (l : List Elem) (st : St), sizeOf l ≤ n →
        DeltaSpec (renderChildren res fonts l st) st) := by
  intro n
  induction n using Nat.strong_induction_on with
  | _ n ih =>
    have hCanvas : ∀ (res : Res) (fonts : Fonts) (e : Elem) (st : St), sizeOf e ≤ n →
        DeltaSpec (renderCanvas res fonts e st) st := by
      intro res fonts e st hsz
      obtain ⟨nm, attrs, cs⟩ := e
      have hlt : sizeOf cs < n := by
        simp at hsz
        omega
      obtain ⟨l1, hops1, hl1s, hl1r⟩ :=
        canvasRtStep_delta (.mk nm attrs cs) ((emit st Op.save).1)
      rcases hout : renderCanvas res fonts (.mk nm attrs cs) st with ⟨stOut, bOut⟩
      unfold renderCanvas at hout
      split at hout
      · -- the RenderTransform call threw: the save is unmatched
        rename_i st2 heqRT
        injection hout with h1 h2
        subst h1; subst h2
        rw [heqRT] at hops1
        refine ⟨[Op.save] ++ l1, ?_, by simp, fun _ => ?_⟩
        · simp only [] at hops1 ⊢
          rw [hops1, emit_save_ops]
          simp
        · simp only [saveDepth_append, saveDepth_single_save,
            saveDepth_of_noSR ⟨hl1s, hl1r⟩]
          omega
      · rename_i st2 heqRT
        rw [heqRT] at hops1
        simp only [] at hops1
        obtain ⟨l2, hops2, hl2s, hl2r⟩ := canvasClipStep_delta (.mk nm attrs cs) st2
        split at hout
        · -- drawing the Clip threw: the save is unmatched
          rename_i st3 heqCl
          injection hout with h1 h2
          subst h1; subst h2
          rw [heqCl] at hops2
          refine ⟨[Op.save] ++ l1 ++ l2, ?_, by simp, fun _ => ?_⟩
          · simp only [] at hops2 ⊢
            rw [hops2, hops1, emit_save_ops]
            simp
          · simp only [saveDepth_append, saveDepth_single_save,
              saveDepth_of_noSR ⟨hl1s, hl1r⟩, saveDepth_of_noSR ⟨hl2s, hl2r⟩]
            omega
        · rename_i st3 heqCl
          rw [heqCl] at hops2
          simp only [] at hops2
          obtain ⟨l3, hops3, hd30, hd31⟩ :=
            (ih (sizeOf cs) hlt).2.2 res fonts cs st3 le_rfl
          split at hout
          · -- an exception from the children propagates: save unmatched
            rename_i st4 heqCh
            injection hout with h1 h2
            subst h1; subst h2
            rw [heqCh] at hops3 hd31
            simp only [] at hops3 hd31
            refine ⟨[Op.save] ++ l1 ++ l2 ++ l3, ?_, by simp, fun _ => ?_⟩
            · rw [hops3, hops2, hops1, emit_save_ops]
              simp
            · have h3 := hd31 trivial
              simp only [saveDepth_append, saveDepth_single_save,
                saveDepth_of_noSR ⟨hl1s, hl1r⟩, saveDepth_of_noSR ⟨hl2s, hl2r⟩]
              omega
          · -- normal path: the closing restore balances the save
            rename_i st4 heqCh
            injection hout with h1 h2
            subst h1; subst h2
            rw [heqCh] at hops3 hd30
            simp only [] at hops3 hd30
            refine ⟨[Op.save] ++ l1 ++ l2 ++ l3 ++ [Op.restore], ?_, fun _ => ?_, by simp⟩
            · rw [emit_restore_ops, hops3, hops2, hops1, emit_save_ops]
              simp
            · have h3 := hd30 trivial
              simp only [saveDepth_append, saveDepth_single_save, saveDepth_single_restore,
                saveDepth_of_noSR ⟨hl1s, hl1r⟩, saveDepth_of_noSR ⟨hl2s, hl2r⟩]
              omega
    have hElem : ∀ (res : Res) (fonts : Fonts) (e : Elem) (st : St), sizeOf e ≤ n →
        DeltaSpec (renderElement res fonts e st) st := by
      intro res fonts e st hsz
      obtain ⟨nm, attrs, cs⟩ := e
      unfold renderElement
      split
      · exact hCanvas res fonts (.mk nm attrs cs) st hsz
      · split
        · obtain ⟨delta, h1, h2, h3⟩ := renderPath_delta res (.mk nm attrs cs) st
          exact ⟨delta, h1, h2, fun ht => le_of_eq (h3 ht).symm⟩
        · split
          · obtain ⟨delta, hops, hd, hflag⟩ := renderGlyphs_delta fonts (.mk nm attrs cs) st
            exact ⟨delta, hops, fun _ => hd, fun ht => absurd ht (by simp [hflag])⟩
          · split
            · exact deltaSpec_id st
            · have hlt : sizeOf cs < n := by
                simp at hsz
                omega
              exact (ih (sizeOf cs) hlt).2.2 res fonts cs st le_rfl
    refine ⟨hCanvas, hElem, ?_⟩
    intro res fonts l st hsz
    cases l with
    | nil =>
      unfold renderChildren
      exact deltaSpec_id st
    | cons c rest =>
      have hltc : sizeOf c ≤ n := by
        simp at hsz
        omega
      have hltr : sizeOf rest < n := by
        simp at hsz
        omega
      obtain ⟨d1, hops1, h10, h11⟩ := hElem res fonts c st hltc
      rcases hout : renderChildren res fonts (c :: rest) st with ⟨stOut, bOut⟩
      unfold renderChildren at hout
      split at hout
      · -- the child threw: the loop aborts and the exception propagates
        rename_i st1 heq1
        injection hout with h1 h2
        subst h1; subst h2
        rw [heq1] at hops1 h11
        simp only [] at hops1 h11
        exact ⟨d1, hops1, by simp, fun _ => h11 trivial⟩
      · rename_i st1 heq1
        rw [heq1] at hops1 h10
        simp only [] at hops1 h10
        obtain ⟨d2, hops2, h20, h21⟩ :=
          (ih (sizeOf rest) hltr).2.2 res fonts rest st1 le_rfl
        rw [hout] at hops2 h20 h21
        simp only [] at hops2 h20 h21
        refine ⟨d1 ++ d2, ?_, fun hb => ?_, fun hb => ?_⟩
        · rw [hops2, hops1]
          simp
        · rw [saveDepth_append, h10 trivial, h20 hb]
          ring
        · rw [saveDepth_append, h10 trivial]
          have := h21 hb
          omega

/-! ### C1: Canvas save/restore balance -/

/-- Exit state of `renderCanvas` on a `Canvas` whose `RenderTransform` is
the non-numeric string `"x"`: `Number("x")` is `NaN`, `doc.transform`
throws, the exception propagates (there is no `try`/`finally`), and the
emitted stream keeps the unmatched `save`. -/
theorem renderCanvas_badRT :
    renderCanvas (fun _ => none) (fun _ => none)
      (Elem.mk "Canvas" [("RenderTransform", "x")] []) ⟨[], [], []⟩ =
      (⟨[Op.save], [], []⟩, true) := by
  have hrt : canvasRtStep (Elem.mk "Canvas" [("RenderTransform", "x")] [])
      ((emit (⟨[], [], []⟩ : St) Op.save).1) = (⟨[Op.save], [], []⟩, true) := by
    with_unfolding_all decide
  unfold renderCanvas
  rw [hrt]

/-- **C1** (counterexample): on a `Canvas` whose `RenderTransform` fails to
parse, `renderCanvas` raises and exits with the save unmatched: the
graphics-state stack depth on exit (1) differs from the depth on entry
(0), refuting balance "on every control-flow path". -/
theorem c1_counterexample :
    renderCanvas (fun _ => none) (fun _ => none)
      (Elem.mk "Canvas" [("RenderTransform", "x")] []) ⟨[], [], []⟩ =
      (⟨[Op.save], [], []⟩, true) ∧
    saveDepth [Op.save] ≠ saveDepth ([] : List Op) :=
  ⟨renderCanvas_badRT, by decide⟩

/-- **C1** (amended): on normal return `renderCanvas` balances its save —
the graphics-state depth on exit equals the depth on entry — but when an
exception propagates out of it (for example from a malformed
`RenderTransform` or `Clip`), at least one save is left unmatched and the
exit depth strictly exceeds the entry depth. -/
theorem c1_canvas_balance (res : Res) (fonts : Fonts) (e : Elem) (st : St) :
    ((renderCanvas res fonts e st).2 = false →
      saveDepth (renderCanvas res fonts e st).1.ops = saveDepth st.ops) ∧
    ((renderCanvas res fonts e st).2 = true →
      saveDepth st.ops + 1 ≤ saveDepth (renderCanvas res fonts e st).1.ops) := by
  obtain ⟨delta, hops, hf, ht⟩ := (render_deltaSpec (sizeOf e)).1 res fonts e st le_rfl
  refine ⟨fun hb => ?_, fun hb => ?_⟩
  · rw [hops, saveDepth_append, hf hb]
    ring
  · have h1 := ht hb
    rw [hops, saveDepth_append]
    omega

/-- Witness for `c1_canvas_balance`: the malformed-`RenderTransform`
canvas instantiates the exceptional branch. -/
theorem c1_canvas_balance_witness :
    saveDepth ((⟨[], [], []⟩ : St).ops) + 1 ≤
      saveDepth ((renderCanvas (fun _ => none) (fun _ => none)
        (Elem.mk "Canvas" [("RenderTransform", "x")] []) ⟨[], [], []⟩).1.ops) :=
  (c1_canvas_balance (fun _ => none) (fun _ => none)
      (Elem.mk "Canvas" [("RenderTransform", "x")] []) ⟨[], [], []⟩).2
    (by rw [renderCanvas_badRT])

/-! ### C2: page size and the global 72/96 scale -/

/-- **C2**: on a package whose first page part is readable with numeric
`Width` and `Height` and whose rendering returns normally, the conversion
succeeds with the single page sized `(Width·72/96, Height·72/96)`, and the
emitted stream is the outermost `save`, then the global `72/96` transform
— applied exactly once, before any content — then the page content, then
the closing `restore`. -/
theorem c2_page_size_and_scale (z : Zip) (reg : List String)
    (page : PageRef) (rest : List PageRef) (fixedPage : Elem) (w h : ℚ) (st3 : St)
    (hfp : findPages z = .ok (page :: rest))
    (hrd : readEntry z page.fpagePath = some fixedPage)
    (hw : (getAttr fixedPage "Width").bind jsParseFloat = some w)
    (hh : (getAttr fixedPage "Height").bind jsParseFloat = some h)
    (hrc : renderChildren (collectResources z page.basePath fixedPage (fun _ => none))
        (collectFontRefs z page.basePath fixedPage (fun _ => none))
        fixedPage.children
        ⟨[Op.save, Op.transform (some XPS_TO_PDF) (some 0) (some 0)
            (some XPS_TO_PDF) (some 0) (some 0)], [], reg⟩ = (st3, false)) :
    convertDwfxToPdf z reg =
      (.ok ⟨(some (w * XPS_TO_PDF), some (h * XPS_TO_PDF)),
        st3.ops ++ [Op.restore]⟩, st3.reg) ∧
    ∃ body, st3.ops =
      [Op.save, Op.transform (some XPS_TO_PDF) (some 0) (some 0)
        (some XPS_TO_PDF) (some 0) (some 0)] ++ body := by
  have hst2 : (emit (emit (⟨[], [], reg⟩ : St) Op.save).1
      (Op.transform (some XPS_TO_PDF) (some 0) (some 0) (some XPS_TO_PDF)
        (some 0) (some 0))).1 =
      (⟨[Op.save, Op.transform (some XPS_TO_PDF) (some 0) (some 0)
          (some XPS_TO_PDF) (some 0) (some 0)], [], reg⟩ : St) := rfl
  constructor
  · unfold convertDwfxToPdf
    rw [hfp]
    dsimp only
    rw [hrd]
    dsimp only
    rw [hst2, hrc]
    dsimp only
    rw [hw, hh]
    simp [jmul, emit, opThrows]
  · obtain ⟨delta, hops, hfalse, _⟩ :=
      (render_deltaSpec (sizeOf fixedPage.children)).2.2
        (collectResources z page.basePath fixedPage (fun _ => none))
        (collectFontRefs z page.basePath fixedPage (fun _ => none))
        fixedPage.children
        ⟨[Op.save, Op.transform (some XPS_TO_PDF) (some 0) (some 0)
            (some XPS_TO_PDF) (some 0) (some 0)], [], reg⟩ le_rfl
    rw [hrc] at hops
    exact ⟨delta, hops⟩

/-- Witness for `c2_page_size_and_scale`: the one-page 960×720 package. -/
theorem c2_page_size_and_scale_witness :
    convertDwfxToPdf pageZip [] =
      (.ok ⟨(some (960 * XPS_TO_PDF), some (720 * XPS_TO_PDF)),
        (⟨[Op.save, Op.transform (some XPS_TO_PDF) (some 0) (some 0)
            (some XPS_TO_PDF) (some 0) (some 0)], [], []⟩ : St).ops ++
          [Op.restore]⟩,
       (⟨[Op.save, Op.transform (some XPS_TO_PDF) (some 0) (some 0)
            (some XPS_TO_PDF) (some 0) (some 0)], [], []⟩ : St).reg) ∧
    ∃ body,
      (⟨[Op.save, Op.transform (some XPS_TO_PDF) (some 0) (some 0)
          (some XPS_TO_PDF) (some 0) (some 0)], [], []⟩ : St).ops =
        [Op.save, Op.transform (some XPS_TO_PDF) (some 0) (some 0)
          (some XPS_TO_PDF) (some 0) (some 0)] ++ body :=
  c2_page_size_and_scale pageZip [] ⟨"page.fpage", "."⟩ []
    (.mk "FixedPage" [("Width", "960"), ("Height", "720")] []) 960 720
    ⟨[Op.save, Op.transform (some XPS_TO_PDF) (some 0) (some 0)
        (some XPS_TO_PDF) (some 0) (some 0)], [], []⟩
    (by with_unfolding_all rfl)
    (by with_unfolding_all rfl)
    (by with_unfolding_all decide)
    (by with_unfolding_all decide)
    (by unfold renderChildren; rfl)

/-! ### C6: page navigation errors -/

/-- The `PageContent` loop only ever fails with the `undefined.replace`
`TypeError` (a `PageContent` without `Source`). -/
theorem pageContentLoop_error (l : List Elem) : ∀ (acc : List PageRef) (e : Err),
    pageContentLoop acc l = .error e → e = .TypeError := by
  induction l with
  | nil => intro acc e h; simp [pageContentLoop] at h
  | cons pc rest ih =>
    intro acc e h
    unfold pageContentLoop at h
    split at h
    · exact ih _ _ h
    · split at h
      · injection h with h1; exact h1.symm
      · exact ih _ _ h

/-- The `DocumentReference` loop only ever fails with the
`undefined.replace` `TypeError`. -/
theorem docRefLoop_error (z : Zip) (l : List Elem) : ∀ (acc : List PageRef) (e : Err),
    docRefLoop z acc l = .error e → e = .TypeError := by
  induction l with
  | nil => intro acc e h; simp [docRefLoop] at h
  | cons child rest ih =>
    intro acc e h
    unfold docRefLoop at h
    split at h
    · exact ih _ _ h
    · split at h
      · injection h with h1; exact h1.symm
      · simp only [] at h
        split at h
        · exact ih _ _ h
        · split at h
          · rename_i e' heq
            injection h with h1
            subst h1
            exact pageContentLoop_error _ _ _ heq
          · exact ih _ _ h

/-- **C6**: page navigation fails `PackageInvalid` exactly when
`FixedDocumentSequence.fdseq` cannot be read; a `DocumentReference` whose
referenced part cannot be read is silently skipped; and the conversion
fails `NoPages` exactly when the navigator returns zero page
references. -/
theorem c6_page_navigation (z : Zip) (reg : List String) :
    (findPages z = .error .PackageInvalid ↔
      readEntry z "FixedDocumentSequence.fdseq" = none) ∧
    (∀ (acc : List PageRef) (child : Elem) (rest : List Elem) (s : String),
      child.name = "DocumentReference" → getAttr child "Source" = some s →
      readEntry z (stripOnce "/" s) = none →
      docRefLoop z acc (child :: rest) = docRefLoop z acc rest) ∧
    ((convertDwfxToPdf z reg).1 = .error .NoPages ↔ findPages z = .ok []) := by
  refine ⟨⟨fun hf => ?_, fun hrd => ?_⟩, fun acc child rest s hname hsrc hrd => ?_,
    fun hc => ?_, fun hf => ?_⟩
  · unfold findPages at hf
    rcases hrd : readEntry z "FixedDocumentSequence.fdseq" with _ | root
    · rfl
    · rw [hrd] at hf
      exact absurd (docRefLoop_error z root.children [] _ hf) (by decide)
  · unfold findPages
    rw [hrd]
  · rw [docRefLoop.eq_def]
    simp [hname, hsrc, hrd]
  · rcases hf : findPages z with e | pages
    · unfold convertDwfxToPdf at hc
      rw [hf] at hc
      simp at hc
      subst hc
      unfold findPages at hf
      rcases hrd : readEntry z "FixedDocumentSequence.fdseq" with _ | root
      · rw [hrd] at hf
        simp at hf
      · rw [hrd] at hf
        exact absurd (docRefLoop_error z root.children [] _ hf) (by decide)
    · rcases pages with _ | ⟨p, rest⟩
      · rfl
      · exfalso
        unfold convertDwfxToPdf at hc
        rw [hf] at hc
        simp only [] at hc
        rcases hrd : readEntry z p.fpagePath with _ | fp
        · rw [hrd] at hc
          simp at hc
        · rw [hrd] at hc
          simp only [] at hc
          split at hc <;> simp at hc
  · unfold convertDwfxToPdf
    rw [hf]

/-- Witness for `c6_page_navigation`: on `missingDocZip` the unreadable
`DocumentReference` is skipped and the conversion fails `NoPages`. -/
theorem c6_page_navigation_witness :
    docRefLoop missingDocZip []
      [Elem.mk "DocumentReference" [("Source", "/missing.fdoc")] []] =
      docRefLoop missingDocZip [] [] ∧
    ((convertDwfxToPdf missingDocZip []).1 = .error .NoPages ↔
      findPages missingDocZip = .ok []) :=
  ⟨(c6_page_navigation missingDocZip []).2.1 []
      (Elem.mk "DocumentReference" [("Source", "/missing.fdoc")] []) [] "/missing.fdoc"
      rfl (by with_unfolding_all rfl) (by with_unfolding_all rfl),
   (c6_page_navigation missingDocZip []).2.2⟩

/-! ### C4: the process-global registered-fonts set -/

/-- The font table collected over `fpGlyphs` holds the packed bytes of
`/f.odttf` (its basename has no UUID, so deobfuscation is the
identity). -/
theorem collectFontRefs_glyphsZip :
    collectFontRefs glyphsZip "." fpGlyphs (fun _ => none) "/f.odttf" =
      some [1, 2, 3] := by
  have h1 : readEntryBuf glyphsZip (resolvePath "." "/f.odttf") = some [1, 2, 3] := by
    with_unfolding_all rfl
  have h2 : truthy (some "/f.odttf") = true := by with_unfolding_all rfl
  have h3 : deobfuscateOdttf [1, 2, 3] (posixBasename "/f.odttf") = [1, 2, 3] := by
    with_unfolding_all rfl
  unfold fpGlyphs glyphsNode
  simp only [collectFontRefs, collectFontList, Elem.name, getAttr, List.find?,
    h1, h2, h3, Option.getD, Option.isNone]
  simp [h1, h2, h3]

/-- First rendering of `glyphsNode` in a process: the font id is not yet
in the global set, so the font is registered on the document and the text
is emitted. -/
theorem renderGlyphs_glyphsNode_fresh (fonts : Fonts) (st : St) (bs : List ℕ)
    (hf : fonts "/f.odttf" = some bs)
    (hreg : st.reg.contains "f_2f662e6f64747466" = false) :
    renderGlyphs fonts glyphsNode st =
      (⟨st.ops ++
          [Op.save, Op.fontOp "f_2f662e6f64747466", Op.fontSize (some 12),
           Op.fillColor "#000000",
           Op.text "Hi" (some 0) (some (0 - 12 * (4 / 5))) false, Op.restore],
        st.docFonts ++ ["f_2f662e6f64747466"],
        st.reg ++ ["f_2f662e6f64747466"]⟩, false) := by
  have ha1 : getAttr glyphsNode "UnicodeString" = some "Hi" := by
    with_unfolding_all rfl
  have ha2 : getAttr glyphsNode "FontUri" = some "/f.odttf" := by
    with_unfolding_all rfl
  have ht1 : truthy (some "Hi") = true := by with_unfolding_all rfl
  have ht2 : truthy (some "/f.odttf") = true := by with_unfolding_all rfl
  have hid : fontIdOf "/f.odttf" = "f_2f662e6f64747466" := by
    with_unfolding_all decide
  have htry : glyphTryOps glyphsNode "f_2f662e6f64747466" =
      [Op.fontOp "f_2f662e6f64747466", Op.fontSize (some 12),
       Op.fillColor "#000000",
       Op.text "Hi" (some 0) (some (0 - 12 * (4 / 5))) false] := by
    with_unfolding_all decide
  have hcontains : ∀ l : List String,
      (l ++ ["f_2f662e6f64747466"]).contains "f_2f662e6f64747466" = true := by
    intro l; simp
  unfold renderGlyphs glyphFontPick
  simp only [ha1, ha2, ht1, ht2, hf, hid, htry, Bool.not_true, Bool.false_eq_true,
    if_false, Option.getD_some, Option.isSome_some, Bool.and_self, hreg,
    Bool.not_false, if_true]
  have hreg2 : "f_2f662e6f64747466" ∉ st.reg := by simpa using hreg
  have hv1 : jsParseFloat (jsOrDefault (getAttr glyphsNode "OriginX") "0") =
      some 0 := by with_unfolding_all decide
  have hv2 : jsub (jsParseFloat (jsOrDefault (getAttr glyphsNode "OriginY") "0"))
      (jmul (jsParseFloat (jsOrDefault (getAttr glyphsNode "FontRenderingEmSize") "12"))
        (some (4 / 5))) = some (0 - 12 * (4 / 5)) := by with_unfolding_all decide
  have hv3 : jsParseFloat (jsOrDefault (getAttr glyphsNode "FontRenderingEmSize") "12") =
      some 12 := by with_unfolding_all decide
  have hv4 : jsOrDefault (getAttr glyphsNode "Fill") "#000000" = "#000000" := by
    with_unfolding_all rfl
  have hv5 : (getAttr glyphsNode "UnicodeString").getD "" = "Hi" := by
    with_unfolding_all rfl
  have hv6 : jsParseFloat (jsOrDefault (getAttr glyphsNode "OriginY") "0") =
      some 0 := by with_unfolding_all decide
  simp [emitList, emit, opThrows, hcontains, htry, hreg2, hv1, hv2, hv3, hv4, hv5,
    hv6, jsub, jmul]

/-- Rendering `glyphsNode` after another conversion already put its font
id into the process-global set: `registerFont` is skipped, so `doc.font`
throws on the fresh document, the `try` swallows it, and no text is
emitted. -/
theorem renderGlyphs_glyphsNode_registered (fonts : Fonts) (st : St) (bs : List ℕ)
    (hf : fonts "/f.odttf" = some bs)
    (hreg : st.reg.contains "f_2f662e6f64747466" = true)
    (hdf : st.docFonts.contains "f_2f662e6f64747466" = false) :
    renderGlyphs fonts glyphsNode st =
      (⟨st.ops ++ [Op.save, Op.restore], st.docFonts, st.reg⟩, false) := by
  have ha1 : getAttr glyphsNode "UnicodeString" = some "Hi" := by
    with_unfolding_all rfl
  have ha2 : getAttr glyphsNode "FontUri" = some "/f.odttf" := by
    with_unfolding_all rfl
  have ht1 : truthy (some "Hi") = true := by with_unfolding_all rfl
  have ht2 : truthy (some "/f.odttf") = true := by with_unfolding_all rfl
  have hid : fontIdOf "/f.odttf" = "f_2f662e6f64747466" := by
    with_unfolding_all decide
  have hreg2 : "f_2f662e6f64747466" ∈ st.reg := by simpa using hreg
  have hdf2 : "f_2f662e6f64747466" ∉ st.docFonts := by simpa using hdf
  unfold renderGlyphs glyphFontPick
  simp only [ha1, ha2, ht1, ht2, hf, hid]
  simp [emitList, emit, opThrows, glyphTryOps, hreg2, hdf2, hf, hid]

/-- Child traversal of the glyphs page: rendering its single `Glyphs`
child is `renderGlyphs`. -/
theorem renderChildren_glyphsNode (res : Res) (fonts : Fonts) (st stOut : St)
    (hg : renderGlyphs fonts glyphsNode st = (stOut, false)) :
    renderChildren res fonts [glyphsNode] st = (stOut, false) := by
  have hel : renderElement res fonts glyphsNode st = renderGlyphs fonts glyphsNode st := by
    unfold glyphsNode renderElement
    simp
  unfold renderChildren
  rw [hel, hg]
  show renderChildren res fonts [] stOut = (stOut, false)
  unfold renderChildren
  rfl

/-- One conversion of `glyphsZip`, parametric in the incoming
process-global set: the result is the sized page around whatever the
children rendering produced. -/
theorem convert_glyphsZip_run (reg : List String) (stOut : St)
    (hrc : renderChildren
        (collectResources glyphsZip "." fpGlyphs (fun _ => none))
        (collectFontRefs glyphsZip "." fpGlyphs (fun _ => none))
        fpGlyphs.children
        ⟨[Op.save, Op.transform (some XPS_TO_PDF) (some 0) (some 0)
            (some XPS_TO_PDF) (some 0) (some 0)], [], reg⟩ = (stOut, false)) :
    convertDwfxToPdf glyphsZip reg =
      (.ok ⟨(some (960 * XPS_TO_PDF), some (720 * XPS_TO_PDF)),
        stOut.ops ++ [Op.restore]⟩, stOut.reg) := by
  have hfp : findPages glyphsZip = .ok [⟨"page.fpage", "."⟩] := by
    with_unfolding_all rfl
  have hrd : readEntry glyphsZip "page.fpage" = some fpGlyphs := by
    with_unfolding_all rfl
  have hw : (getAttr fpGlyphs "Width").bind jsParseFloat = some 960 := by
    with_unfolding_all decide
  have hh : (getAttr fpGlyphs "Height").bind jsParseFloat = some 720 := by
    with_unfolding_all decide
  have hst2 : (emit (emit (⟨[], [], reg⟩ : St) Op.save).1
      (Op.transform (some XPS_TO_PDF) (some 0) (some 0) (some XPS_TO_PDF)
        (some 0) (some 0))).1 =
      (⟨[Op.save, Op.transform (some XPS_TO_PDF) (some 0) (some 0)
          (some XPS_TO_PDF) (some 0) (some 0)], [], reg⟩ : St) := rfl
  unfold convertDwfxToPdf
  rw [hfp]
  dsimp only
  rw [hrd]
  dsimp only
  rw [hst2, hrc]
  dsimp only
  rw [hw, hh]
  simp [jmul, emit, opThrows]

/-- **C4** (divergence): the registered-font-identifiers set is
process-global, not scoped to one conversion.  Converting `glyphsZip`
twice in one process yields different documents: the first run registers
the font and emits the text, the second finds the id already in the
global set, skips `registerFont`, `doc.font` throws on the fresh
document and the text is dropped. -/
theorem c4_global_registry_divergence :
    (convertDwfxToPdf glyphsZip []).2 = [fontIdOf "/f.odttf"] ∧
    (convertDwfxToPdf glyphsZip ((convertDwfxToPdf glyphsZip []).2)).1 ≠
      (convertDwfxToPdf glyphsZip []).1 := by
  have hfonts := collectFontRefs_glyphsZip
  have hg1 := renderGlyphs_glyphsNode_fresh
    (collectFontRefs glyphsZip "." fpGlyphs (fun _ => none))
    ⟨[Op.save, Op.transform (some XPS_TO_PDF) (some 0) (some 0)
        (some XPS_TO_PDF) (some 0) (some 0)], [], []⟩ [1, 2, 3] hfonts rfl
  have hrc1 := renderChildren_glyphsNode
    (collectResources glyphsZip "." fpGlyphs (fun _ => none))
    (collectFontRefs glyphsZip "." fpGlyphs (fun _ => none)) _ _ hg1
  have hrun1 := convert_glyphsZip_run [] _ hrc1
  have hg2 := renderGlyphs_glyphsNode_registered
    (collectFontRefs glyphsZip "." fpGlyphs (fun _ => none))
    ⟨[Op.save, Op.transform (some XPS_TO_PDF) (some 0) (some 0)
        (some XPS_TO_PDF) (some 0) (some 0)], [], ["f_2f662e6f64747466"]⟩
    [1, 2, 3] hfonts rfl rfl
  have hrc2 := renderChildren_glyphsNode
    (collectResources glyphsZip "." fpGlyphs (fun _ => none))
    (collectFontRefs glyphsZip "." fpGlyphs (fun _ => none)) _ _ hg2
  have hrun2 := convert_glyphsZip_run ["f_2f662e6f64747466"] _ hrc2
  have harg : (convertDwfxToPdf glyphsZip []).2 = ["f_2f662e6f64747466"] := by
    rw [hrun1]
    rfl
  refine ⟨by rw [harg]; with_unfolding_all rfl, ?_⟩
  rw [harg, hrun2, hrun1]
  simp only [ne_eq, Except.ok.injEq]
  intro hcontra
  have hops := congrArg PdfOut.ops hcontra
  simp at hops
